import Mathlib

/-!
# Verification of the opti2025 reversible-mutation core

Shallow embedding of `src/opti2025/cleanup.py`, `performance.py` and
`max_performance.py`.  Effectful primitives (filesystem moves, registry
access, `sc.exe` / `powercfg` / `taskkill` invocations) are modelled as
explicit worlds passed into the engine functions; the engines themselves are
translated statement by statement from the Python source.  Each engine
returns its result value together with the final world and, for the two
registry-based profiles, an event trace recording the order of adapter calls,
which lets us state the capture-before-write ordering invariants.
-/

namespace Opti2025

/-! ## Python string primitives

Python compares strings lexicographically by code point.  We implement the
comparison on `String.data` so that concrete instances reduce in the kernel.
-/

/-- Python `<` on single characters: code-point comparison. -/
def pyCharLt (a b : Char) : Bool := decide (a.toNat < b.toNat)

/-- Python `<` on strings as lists of characters (lexicographic). -/
def pyStrLtChars : List Char → List Char → Bool
  | [], [] => false
  | [], _ :: _ => true
  | _ :: _, [] => false
  | a :: as, b :: bs =>
    if pyCharLt a b then true
    else if pyCharLt b a then false
    else pyStrLtChars as bs

/-- Python `<` on strings. -/
def pyStrLt (a b : String) : Bool := pyStrLtChars a.data b.data

/-- The relation "`a ≥ b` in Python string order", used to model
`sorted(..., reverse=True)`. -/
def descRel (a b : String) : Prop := pyStrLt a b = false

instance : DecidableRel descRel := fun a b => instDecidableEqBool (pyStrLt a b) false

theorem pyCharLt_asymm {a b : Char} (h : pyCharLt a b = true) : pyCharLt b a = false := by
  simp only [pyCharLt, decide_eq_true_eq, decide_eq_false_iff_not] at *
  omega

theorem pyCharLt_eq_of_not {a b : Char} (h1 : pyCharLt a b = false)
    (h2 : pyCharLt b a = false) : a = b := by
  simp only [pyCharLt, decide_eq_false_iff_not] at h1 h2
  have hv : a.toNat = b.toNat := by omega
  exact Char.ext (UInt32.ext hv)

theorem pyCharLt_irrefl (a : Char) : pyCharLt a a = false := by
  simp [pyCharLt]

theorem pyStrLtChars_irrefl : ∀ a : List Char, pyStrLtChars a a = false := by
  intro a
  induction a with
  | nil => rfl
  | cons x xs ih => simp [pyStrLtChars, pyCharLt_irrefl, ih]

theorem pyStrLtChars_asymm : ∀ a b : List Char,
    pyStrLtChars a b = true → pyStrLtChars b a = false := by
  intro a
  induction a with
  | nil =>
    intro b h
    cases b with
    | nil => simp [pyStrLtChars] at h
    | cons y ys => simp [pyStrLtChars]
  | cons x xs ih =>
    intro b h
    cases b with
    | nil => simp [pyStrLtChars] at h
    | cons y ys =>
      simp only [pyStrLtChars] at h ⊢
      cases hxy : pyCharLt x y with
      | true =>
        rw [hxy] at h
        rw [pyCharLt_asymm hxy]
        simp
      | false =>
        rw [hxy] at h
        cases hyx : pyCharLt y x with
        | true => rw [hyx] at h; simp at h
        | false =>
          rw [hyx] at h
          simp only [if_false, Bool.false_eq_true] at h ⊢
          exact ih ys h

theorem pyStrLtChars_connex : ∀ a b : List Char,
    pyStrLtChars a b = false → pyStrLtChars b a = false → a = b := by
  intro a
  induction a with
  | nil =>
    intro b h1 _
    cases b with
    | nil => rfl
    | cons y ys => simp [pyStrLtChars] at h1
  | cons x xs ih =>
    intro b h1 h2
    cases b with
    | nil => simp [pyStrLtChars] at h2
    | cons y ys =>
      simp only [pyStrLtChars] at h1 h2
      cases hxy : pyCharLt x y with
      | true => rw [hxy] at h1; simp at h1
      | false =>
        cases hyx : pyCharLt y x with
        | true => rw [hyx] at h2; simp at h2
        | false =>
          rw [hxy, hyx] at h1
          simp only [if_false, Bool.false_eq_true] at h1
          rw [pyCharLt_eq_of_not hxy hyx, ih ys h1 (by rw [hyx, hxy] at h2; simpa using h2)]

theorem pyStrLtChars_trans_le : ∀ a b c : List Char,
    pyStrLtChars a b = false → pyStrLtChars b c = false → pyStrLtChars a c = false := by
  intro a
  induction a with
  | nil =>
    intro b c h1 h2
    cases b with
    | nil => exact h2
    | cons y ys => simp [pyStrLtChars] at h1
  | cons x xs ih =>
    intro b c h1 h2
    cases b with
    | nil =>
      cases c with
      | nil => simp [pyStrLtChars]
      | cons z zs => simp [pyStrLtChars] at h2
    | cons y ys =>
      cases c with
      | nil => simp [pyStrLtChars]
      | cons z zs =>
        simp only [pyStrLtChars] at h1 h2 ⊢
        -- extract the character-level facts, then settle all branches by arithmetic
        cases hxy : pyCharLt x y with
        | true => rw [hxy] at h1; simp at h1
        | false =>
        cases hyz : pyCharLt y z with
        | true => rw [hyz] at h2; simp at h2
        | false =>
        rw [hxy] at h1
        rw [hyz] at h2
        simp only [if_false, Bool.false_eq_true] at h1 h2
        cases hyx : pyCharLt y x with
        | true =>
          -- z ≤ y < x, so z < x strictly: second branch of the goal fires
          have hxz : pyCharLt x z = false := by
            simp only [pyCharLt, decide_eq_true_eq, decide_eq_false_iff_not] at hxy hyz hyx ⊢
            omega
          have hzx : pyCharLt z x = true := by
            simp only [pyCharLt, decide_eq_true_eq, decide_eq_false_iff_not] at hxy hyz hyx ⊢
            omega
          rw [hxz, hzx]
          simp
        | false =>
        cases hzy : pyCharLt z y with
        | true =>
          -- z < y = x: again z strictly below x
          have hxz : pyCharLt x z = false := by
            simp only [pyCharLt, decide_eq_true_eq, decide_eq_false_iff_not] at hxy hyx hzy ⊢
            omega
          have hzx : pyCharLt z x = true := by
            simp only [pyCharLt, decide_eq_true_eq, decide_eq_false_iff_not] at hxy hyx hzy ⊢
            omega
          rw [hxz, hzx]
          simp
        | false =>
        -- x = y = z at the head: recurse on the tails
        rw [hyx] at h1
        rw [hzy] at h2
        simp only [if_false, Bool.false_eq_true] at h1 h2
        have hxz : pyCharLt x z = false := by
          simp only [pyCharLt, decide_eq_true_eq, decide_eq_false_iff_not] at hxy hyx hyz hzy ⊢
          omega
        have hzx : pyCharLt z x = false := by
          simp only [pyCharLt, decide_eq_true_eq, decide_eq_false_iff_not] at hxy hyx hyz hzy ⊢
          omega
        rw [hxz, hzx]
        simp only [if_false, Bool.false_eq_true]
        exact ih ys zs h1 h2

instance : IsTotal String descRel := by
  constructor
  intro a b
  cases h : pyStrLt a b with
  | false => exact Or.inl h
  | true => exact Or.inr (pyStrLtChars_asymm a.data b.data h)

instance : IsTrans String descRel := by
  constructor
  intro a b c h1 h2
  exact pyStrLtChars_trans_le a.data b.data c.data h1 h2

/-- Model of `sorted(xs, reverse=True)` for Python strings: sort by the
"greater or equal" relation.  (Python's sort is stable; insertion sort is a
stable sorting algorithm for the same total preorder, and on strings the
order is total and antisymmetric, so the result is uniquely determined.) -/
def sortedDescending (l : List String) : List String :=
  List.insertionSort descRel l

theorem sortedDescending_perm (l : List String) : (sortedDescending l).Perm l :=
  List.perm_insertionSort descRel l

theorem sortedDescending_sorted (l : List String) :
    List.Sorted descRel (sortedDescending l) :=
  List.sorted_insertionSort descRel l

/-- The head of the descending sort is a maximum of the list. -/
theorem sortedDescending_head_max {l : List String} {m : String}
    (h : (sortedDescending l).head? = some m) :
    m ∈ l ∧ ∀ y ∈ l, pyStrLt m y = false := by
  have hperm := sortedDescending_perm l
  have hsorted := sortedDescending_sorted l
  cases hs : sortedDescending l with
  | nil => rw [hs] at h; simp at h
  | cons x xs =>
    rw [hs] at h
    simp only [List.head?_cons, Option.some.injEq] at h
    subst h
    rw [hs] at hperm hsorted
    constructor
    · exact hperm.mem_iff.mp (List.mem_cons_self x xs)
    · intro y hy
      have hy' : y ∈ x :: xs := hperm.mem_iff.mpr hy
      rcases List.mem_cons.mp hy' with rfl | hmem
      · exact pyStrLtChars_irrefl _
      · exact (List.sorted_cons.mp hsorted).1 y hmem

/-! ## JSON values

Manifests are JSON documents.  `JValue` models the values that can occur in
a parsed manifest.  Note that in Python `bool` is a subclass of `int`, so
`isinstance(v, int)` is true for booleans; `pyIsInstInt` reflects this. -/

inductive JValue where
  | jnull : JValue
  | jbool : Bool → JValue
  | jint : Int → JValue
  | jstr : String → JValue
  | jobj : List (String × JValue) → JValue

/-- Python `isinstance(v, str)` on a JSON value. -/
def pyIsInstStr : JValue → Bool
  | JValue.jstr _ => true
  | _ => false

/-- Python `isinstance(v, int)` on a JSON value.  `True`/`False` are
instances of `int` in Python. -/
def pyIsInstInt : JValue → Bool
  | JValue.jint _ => true
  | JValue.jbool _ => true
  | _ => false

/-- Python `isinstance(v, dict)` on a JSON value. -/
def pyIsInstDict : JValue → Bool
  | JValue.jobj _ => true
  | _ => false

/-- `dict.get` on a JSON-object field list (first binding wins, as Python
dict keys are unique). -/
def jget (fields : List (String × JValue)) (k : String) : Option JValue :=
  fields.lookup k

/-- Insert-or-update into an association list, preserving the position of an
existing key: the semantics of `d[k] = v` on a Python dict. -/
def upsert {β : Type} (k : String) (v : β) : List (String × β) → List (String × β)
  | [] => [(k, v)]
  | (k', v') :: rest => if k' = k then (k, v) :: rest else (k', v') :: upsert k v rest

/-! ## The Manifest Store's "latest session" resolution

All three restore entry points run the same pattern over the profile's
backups root:

    backup_dirs = sorted([p for p in backups_root.iterdir() if p.is_dir()],
                         reverse=True)
    ... backup_dirs[0]

`latestSession` models it: `rootExists` is `backups_root.exists()`, and each
listed entry carries its `is_dir()` flag.  Sorting `Path` values that share a
parent orders them by their final component, so we sort the names. -/

structure DirEntry where
  name : String
  isDir : Bool
deriving Repr, DecidableEq

def latestSession (rootExists : Bool) (entries : List DirEntry) : Option String :=
  if rootExists then
    (sortedDescending ((entries.filter (fun e => e.isDir)).map (fun e => e.name))).head?
  else none

/-! ## Cleanup engine (`cleanup.py`)

The filesystem slice visible to the Cleanup engine maps a directory path to
the list of names it contains; a present key models `Path.exists()`.
Parsed cleanup manifests (`manifest.json` under a session directory) are a
separate map.  Adapter outcomes that depend on the OS (access checks,
`shutil.move` failures, `mkdir` failures and their exception texts) come
from a `CleanupWorld`. -/

structure CleanupResult where
  scanned : Nat
  moved : Nat
  failed : Nat
  skipped : Nat
  backup_dir : Option String
  errors : List String
deriving Repr, DecidableEq

structure CleanupFS where
  dirs : List (String × List String)
  manifests : List (String × List (String × String))
deriving Repr, DecidableEq

def CleanupFS.dirList (fs : CleanupFS) (p : String) : Option (List String) :=
  fs.dirs.lookup p

def CleanupFS.dirExists (fs : CleanupFS) (p : String) : Bool :=
  (fs.dirList p).isSome

structure CleanupWorld where
  readable : String → Bool
  writable : String → Bool
  moveOk : String → String → Bool
  moveErr : String → String → String
  mkdirOk : String → Bool
  mkdirErr : String → String

/-- Environment variables consulted by `_collect_temp_dirs`; `none` models an
unset variable. -/
structure CleanupEnv where
  TEMP : Option String
  TMP : Option String
  WINDIR : Option String

/-- Python truthiness of `os.environ.get(...)`: set and non-empty. -/
def pyTruthy : Option String → Bool
  | none => false
  | some s => s ≠ ""

/-- `os.environ.get("TEMP") or os.environ.get("TMP")`. -/
def envTempOrTmp (env : CleanupEnv) : Option String :=
  if pyTruthy env.TEMP then env.TEMP else env.TMP

/-- Joining one component onto a Windows path (`parent / child` in pathlib,
rendered with a backslash as `str()` does on Windows). -/
def winJoin (a b : String) : String := a ++ "\\" ++ b

/-- `_collect_temp_dirs`: the TEMP-or-TMP directory if set, then
`WINDIR/Temp` if WINDIR is set. -/
def collect_temp_dirs (env : CleanupEnv) : List String :=
  (if pyTruthy (envTempOrTmp env) then [(envTempOrTmp env).getD ""] else []) ++
  (if pyTruthy env.WINDIR then [winJoin (env.WINDIR.getD "") "Temp"] else [])

/-! Windows path decomposition, as far as `_backup_subdir_name` needs it:
`drive` is the leading `X:` when the second character is a colon, `root` is
a backslash when a separator follows the drive, and `parts` starts with the
anchor (drive+root, when non-empty) followed by the non-empty components
(UNC paths are out of scope). -/

def isSep (c : Char) : Bool := c = '\\' ∨ c = '/'

def pathDriveChars : List Char → List Char
  | a :: ':' :: _ => [a, ':']
  | _ => []

def pathRootChars (l : List Char) : List Char :=
  match l.drop (pathDriveChars l).length with
  | c :: _ => if isSep c then ['\\'] else []
  | [] => []

/-- Split a character list on path separators. -/
def splitSeps : List Char → List (List Char)
  | [] => [[]]
  | c :: cs =>
    let rest := splitSeps cs
    if isSep c then [] :: rest
    else match rest with
      | [] => [[c]]
      | r :: rs => (c :: r) :: rs

def pathSegs (l : List Char) : List (List Char) :=
  (splitSeps (l.drop (pathDriveChars l).length)).filter
    (fun s => s ≠ [] ∧ s ≠ ['.'])

def pathDrive (p : String) : String := String.mk (pathDriveChars p.data)

def pathRoot (p : String) : String := String.mk (pathRootChars p.data)

def pathParts (p : String) : List String :=
  let anchor := pathDriveChars p.data ++ pathRootChars p.data
  (if anchor ≠ [] then [String.mk anchor] else []) ++
    (pathSegs p.data).map String.mk

def joinUnderscore : List String → String
  | [] => ""
  | [s] => s
  | s :: rest => s ++ "_" ++ joinUnderscore rest

/-- `_backup_subdir_name`: the drive with its colon removed, prepended to the
parts that differ from the drive and the root, non-empty ones joined by
underscores. -/
def backup_subdir_name (p : String) : String :=
  let drive := String.mk ((pathDriveChars p.data).filter (fun c => c ≠ ':'))
  let parts := drive ::
    (pathParts p).filter (fun part => part ≠ pathDrive p ∧ part ≠ pathRoot p)
  joinUnderscore (parts.filter (fun s => s ≠ ""))

/-! Filesystem updates used by the Cleanup engine. -/

/-- Set (insert or replace) the listing of a directory. -/
def CleanupFS.setDir (fs : CleanupFS) (p : String) (l : List String) : CleanupFS :=
  { fs with dirs := upsert p l fs.dirs }

/-- `child.mkdir(parents=True, exist_ok=True)` for `child` directly under
`parent`: record `child` in the parent's listing (creating the parent key if
needed) and create the child's own key if absent. -/
def CleanupFS.mkdirUnder (fs : CleanupFS) (parent child : String) : CleanupFS :=
  let pl := (fs.dirList parent).getD []
  let fs1 := fs.setDir parent (if child ∈ pl then pl else pl ++ [child])
  let ck := winJoin parent child
  if fs1.dirExists ck then fs1 else fs1.setDir ck []

/-- `shutil.move(src/name, dst/name)` on a successful move: drop the entry
from the source listing and add it to the destination listing. -/
def CleanupFS.moveEntry (fs : CleanupFS) (src dst name : String) : CleanupFS :=
  let fs1 := fs.setDir src (((fs.dirList src).getD []).erase name)
  let dl := (fs1.dirList dst).getD []
  fs1.setDir dst (if name ∈ dl then dl else dl ++ [name])

/-- Accumulator for the per-entry move loops (shared by apply and restore:
both run `for entry in dir.iterdir(): scanned += 1; try: move ...`). -/
structure MoveAcc where
  fs : CleanupFS
  scanned : Nat
  moved : Nat
  failed : Nat
  errors : List String

def moveEntriesStep (w : CleanupWorld) (srcDir dstDir : String)
    (acc : MoveAcc) (name : String) : MoveAcc :=
  let acc := { acc with scanned := acc.scanned + 1 }
  if w.moveOk srcDir name then
    { acc with
      fs := acc.fs.moveEntry srcDir dstDir name,
      moved := acc.moved + 1 }
  else
    { acc with
      failed := acc.failed + 1,
      errors := acc.errors ++ [winJoin srcDir name ++ ": " ++ w.moveErr srcDir name] }

/-- Accumulator for `safe_cleanup`'s loop over temp directories. -/
structure CleanupAcc where
  fs : CleanupFS
  mapping : List (String × String)
  scanned : Nat
  moved : Nat
  failed : Nat
  skipped : Nat
  errors : List String

/-- One iteration of `safe_cleanup`'s `for temp_dir in temp_dirs` loop. -/
def cleanupDirStep (w : CleanupWorld) (backupsRoot timestamp : String)
    (acc : CleanupAcc) (tempDir : String) : CleanupAcc :=
  if ¬ acc.fs.dirExists tempDir then
    { acc with skipped := acc.skipped + 1 }
  else if ¬ (w.writable tempDir && w.readable tempDir) then
    { acc with
      skipped := acc.skipped + 1,
      errors := acc.errors ++ ["Accès refusé: " ++ tempDir] }
  else
    let destinationName := backup_subdir_name tempDir
    let backupRoot := winJoin backupsRoot timestamp
    let destinationRoot := winJoin backupRoot destinationName
    let mapping := upsert destinationName tempDir acc.mapping
    let fs := (acc.fs.mkdirUnder backupsRoot timestamp).mkdirUnder backupRoot destinationName
    let entries := (fs.dirList tempDir).getD []
    let m := entries.foldl (moveEntriesStep w tempDir destinationRoot)
      ⟨fs, acc.scanned, acc.moved, acc.failed, acc.errors⟩
    { acc with
      fs := m.fs, mapping := mapping, scanned := m.scanned,
      moved := m.moved, failed := m.failed, errors := m.errors }

/-- `safe_cleanup()`.  `backupsRoot` stands for
`home/.opti2025/safe_backups` and `timestamp` for the
`datetime.now().strftime(...)` value; the session root is their join.
Returns the result together with the final filesystem. -/
def safe_cleanup (w : CleanupWorld) (env : CleanupEnv)
    (backupsRoot timestamp : String) (fs : CleanupFS) :
    CleanupResult × CleanupFS :=
  let tempDirs := collect_temp_dirs env
  let backupRoot := winJoin backupsRoot timestamp
  let a := tempDirs.foldl (cleanupDirStep w backupsRoot timestamp)
    ⟨fs, [], 0, 0, 0, 0, []⟩
  if a.moved = 0 ∧ a.failed = 0 then
    (⟨a.scanned, a.moved, a.failed, a.skipped, none, a.errors⟩, a.fs)
  else
    (⟨a.scanned, a.moved, a.failed, a.skipped, some backupRoot, a.errors⟩,
     { a.fs with manifests := upsert backupRoot a.mapping a.fs.manifests })

/-- `_read_manifest` for cleanup sessions: missing file reads as `{}`. -/
def readCleanupManifest (fs : CleanupFS) (session : String) : List (String × String) :=
  (fs.manifests.lookup session).getD []

/-- Accumulator for `restore_latest_backup`'s loop over manifest items. -/
structure RestoreAcc where
  fs : CleanupFS
  scanned : Nat
  moved : Nat
  failed : Nat
  skipped : Nat
  errors : List String

/-- One iteration of `restore_latest_backup`'s `for backup_name,
destination_str in manifest.items()` loop. -/
def restoreDirStep (w : CleanupWorld) (latestBackup : String)
    (acc : RestoreAcc) (kv : String × String) : RestoreAcc :=
  let backupName := kv.1
  let destination := kv.2
  let sourceRoot := winJoin latestBackup backupName
  if ¬ acc.fs.dirExists sourceRoot then
    { acc with skipped := acc.skipped + 1 }
  else if ¬ acc.fs.dirExists destination ∧ ¬ w.mkdirOk destination then
    { acc with
      skipped := acc.skipped + 1,
      errors := acc.errors ++
        ["Impossible de recréer " ++ destination ++ ": " ++ w.mkdirErr destination] }
  else
    let fs := if acc.fs.dirExists destination then acc.fs
      else acc.fs.setDir destination []
    let entries := (fs.dirList sourceRoot).getD []
    let m := entries.foldl (moveEntriesStep w sourceRoot destination)
      ⟨fs, acc.scanned, acc.moved, acc.failed, acc.errors⟩
    { acc with
      fs := m.fs, scanned := m.scanned, moved := m.moved,
      failed := m.failed, errors := m.errors }

/-- The `iterdir()` view of a directory used when resolving the latest
session: each entry name with its `is_dir()` flag (an entry is a directory
exactly when the filesystem has a key for it). -/
def listingEntries (fs : CleanupFS) (root : String) : List DirEntry :=
  ((fs.dirList root).getD []).map (fun n => ⟨n, fs.dirExists (winJoin root n)⟩)

/-- `restore_latest_backup()`.  `backupsRoot` stands for
`home/.opti2025/safe_backups`. -/
def restore_latest_backup (w : CleanupWorld) (backupsRoot : String)
    (fs : CleanupFS) : CleanupResult × CleanupFS :=
  if ¬ fs.dirExists backupsRoot then
    (⟨0, 0, 0, 1, none, ["Aucune sauvegarde disponible."]⟩, fs)
  else
    match latestSession true (listingEntries fs backupsRoot) with
    | none => (⟨0, 0, 0, 1, none, ["Aucune sauvegarde disponible."]⟩, fs)
    | some name =>
      let latestBackup := winJoin backupsRoot name
      let manifest := readCleanupManifest fs latestBackup
      if manifest.isEmpty then
        (⟨0, 0, 0, 1, none, ["Manifest de sauvegarde introuvable."]⟩, fs)
      else
        let a := manifest.foldl (restoreDirStep w latestBackup) ⟨fs, 0, 0, 0, 0, []⟩
        (⟨a.scanned, a.moved, a.failed, a.skipped, some latestBackup, a.errors⟩, a.fs)

/-! ## Performance / MaxPerformance engines

Both engines talk to the OS through registry keys, `sc.exe`, `powercfg` and
`taskkill`.  The registry state is threaded through the call (so the
manifest's captured value can be compared with the post-mutation state); the
service/power command outcomes are per-call oracles.  Every adapter call is
recorded in an event trace in program order. -/

inductive Event where
  | mkdirSession : Event
  | queryStart : String → Event
  | queryRun : String → Event
  | stopSvc : String → Event
  | configSvc : String → String → Event
  | startSvc : String → Event
  | getActiveScheme : Event
  | listSchemes : Event
  | setScheme : String → Event
  | regOpenRun : Event
  | regQueryOneDrive : Event
  | regDeleteOneDrive : Event
  | regSetOneDrive : String → Event
  | bgCreateKey : Event
  | bgQuery : Event
  | bgSet : Int → Event
  | bgDelete : Event
  | taskkill : Event
  | writeManifest : List (String × JValue) → Event

/-- Is this event the manifest write? -/
def Event.isWrite : Event → Bool
  | Event.writeManifest _ => true
  | _ => false

/-- Does this event mutate OS state (service stop/config/start, power-scheme
activation, registry delete/set, process kill)?  Queries, directory creation
and the manifest write are not OS mutations. -/
def Event.isMutation : Event → Bool
  | Event.stopSvc _ => true
  | Event.configSvc _ _ => true
  | Event.startSvc _ => true
  | Event.setScheme _ => true
  | Event.regDeleteOneDrive => true
  | Event.regSetOneDrive _ => true
  | Event.bgSet _ => true
  | Event.bgDelete => true
  | Event.taskkill => true
  | _ => false

/-- JSON encoding of a `str | None` Python value. -/
def optStr : Option String → JValue
  | some s => JValue.jstr s
  | none => JValue.jnull

/-- JSON encoding of an `int | None` Python value. -/
def optInt : Option Int → JValue
  | some n => JValue.jint n
  | none => JValue.jnull

/-- The `HKCU\...\CurrentVersion\Run` key as the engines see it: the current
`OneDrive` value plus success/exception-text oracles for each registry
operation attempted on it. -/
structure RunKey where
  openOk : Bool
  openErr : String
  value : Option String
  deleteOk : Bool
  deleteErr : String
  setOpenOk : Bool
  setOpenErr : String
  setValueOk : Bool
  setValueErr : String

/-- The `BackgroundAccessApplications` key: current `GlobalUserDisabled`
value plus operation oracles. -/
structure BgKey where
  createOk : Bool
  createErr : String
  value : Option Int
  setOk : Bool
  setErr : String
  deleteOk : Bool
  deleteErr : String

/-- Outcome of `subprocess.run(["taskkill", ...])`: return code and
(already stripped) stderr text. -/
structure Taskkill where
  rc : Int
  stderr : String

/-- `sc.exe` behaviour for the MaxPerformance engine. -/
structure ServiceWorld where
  startTypeOf : String → Option String
  runningOf : String → Option Bool
  stopOk : String → Bool
  configOk : String → String → Bool
  startOk : String → Bool

/-- `powercfg` behaviour. -/
structure PowerWorld where
  activeScheme : Option String
  highPerfScheme : Option String
  setOk : String → Bool

/-- The profile's backup root on disk, as seen by a restore call:
whether the root exists, its listing (with `is_dir` flags), and the parsed
manifest of each session directory (`[]` models a missing `manifest.json`,
which `_read_manifest` reads as `{}`). -/
structure BackupStore where
  rootExists : Bool
  entries : List DirEntry
  manifestOf : String → List (String × JValue)

structure PerformanceResult where
  onedrive_disabled : Bool
  background_apps_disabled : Bool
  onedrive_process_stopped : Bool
  backup_dir : Option String
  errors : List String
deriving Repr, DecidableEq

structure MaxPerformanceResult where
  services_disabled : List String
  indexing_disabled : Bool
  power_scheme_set : Bool
  onedrive_disabled : Bool
  onedrive_process_stopped : Bool
  backup_dir : Option String
  errors : List String
deriving Repr, DecidableEq

/-- `performance._ensure_windows`. -/
def ensure_windows_performance (platform : String) : Bool × List String :=
  if platform ≠ "win32" then
    (false, ["Profil Performance disponible uniquement sur Windows."])
  else (true, [])

/-- `max_performance._ensure_windows`. -/
def ensure_windows_max (platform : String) : Bool × List String :=
  if platform ≠ "win32" then
    (false, ["Profil Max Performance disponible uniquement sur Windows."])
  else (true, [])

/-- Outcome of one disable step: the success flag and captured previous
value it reports, the errors it appended, the registry key afterwards and
the adapter calls it made. -/
structure DisableOutcome (α κ : Type) where
  disabled : Bool
  previous : Option α
  errors : List String
  key : κ
  events : List Event

/-- Outcome of one restore step. -/
structure RestoreStepOutcome (κ : Type) where
  errors : List String
  key : κ
  events : List Event

/-- `_disable_onedrive_run` (duplicated verbatim in `performance.py` and
`max_performance.py`): capture the current value, then delete it. -/
def disable_onedrive_run (rk : RunKey) : DisableOutcome String RunKey :=
  if ¬ rk.openOk then
    ⟨false, none, ["Impossible de modifier l'entrée OneDrive: " ++ rk.openErr],
     rk, [Event.regOpenRun]⟩
  else
    match rk.value with
    | none =>
      ⟨false, none, [], rk, [Event.regOpenRun, Event.regQueryOneDrive]⟩
    | some v =>
      if rk.deleteOk then
        ⟨true, some v, [], { rk with value := none },
         [Event.regOpenRun, Event.regQueryOneDrive, Event.regDeleteOneDrive]⟩
      else
        ⟨false, some v,
         ["Impossible de modifier l'entrée OneDrive: " ++ rk.deleteErr], rk,
         [Event.regOpenRun, Event.regQueryOneDrive, Event.regDeleteOneDrive]⟩

/-- `_restore_onedrive_run` (duplicated verbatim in both modules): write the
captured value back, or delete the entry when the capture was absent. -/
def restore_onedrive_run (previousValue : Option String) (rk : RunKey) :
    RestoreStepOutcome RunKey :=
  if ¬ rk.setOpenOk then
    ⟨["Impossible de restaurer OneDrive: " ++ rk.setOpenErr], rk, [Event.regOpenRun]⟩
  else
    match previousValue with
    | none =>
      match rk.value with
      | none =>
        -- DeleteValue raises FileNotFoundError, which is passed over
        ⟨[], rk, [Event.regOpenRun, Event.regDeleteOneDrive]⟩
      | some _ =>
        if rk.deleteOk then
          ⟨[], { rk with value := none }, [Event.regOpenRun, Event.regDeleteOneDrive]⟩
        else
          ⟨["Impossible de restaurer OneDrive: " ++ rk.deleteErr], rk,
           [Event.regOpenRun, Event.regDeleteOneDrive]⟩
    | some v =>
      if rk.setValueOk then
        ⟨[], { rk with value := some v }, [Event.regOpenRun, Event.regSetOneDrive v]⟩
      else
        ⟨["Impossible de restaurer OneDrive: " ++ rk.setValueErr], rk,
         [Event.regOpenRun, Event.regSetOneDrive v]⟩

/-- `performance._disable_background_apps`: capture the current flag value,
then set it to 1. -/
def disable_background_apps (bk : BgKey) : DisableOutcome Int BgKey :=
  if ¬ bk.createOk then
    ⟨false, none,
     ["Impossible de réduire les apps en arrière-plan: " ++ bk.createErr], bk,
     [Event.bgCreateKey]⟩
  else
    let previous := bk.value
    if bk.setOk then
      ⟨true, previous, [], { bk with value := some 1 },
       [Event.bgCreateKey, Event.bgQuery, Event.bgSet 1]⟩
    else
      ⟨false, previous,
       ["Impossible de réduire les apps en arrière-plan: " ++ bk.setErr], bk,
       [Event.bgCreateKey, Event.bgQuery, Event.bgSet 1]⟩

/-- `performance._restore_background_apps`: write the captured value back,
or delete the flag when the capture was absent. -/
def restore_background_apps (previousValue : Option Int) (bk : BgKey) :
    RestoreStepOutcome BgKey :=
  if ¬ bk.createOk then
    ⟨["Impossible de restaurer les apps en arrière-plan: " ++ bk.createErr], bk,
     [Event.bgCreateKey]⟩
  else
    match previousValue with
    | none =>
      match bk.value with
      | none => ⟨[], bk, [Event.bgCreateKey, Event.bgDelete]⟩
      | some _ =>
        if bk.deleteOk then
          ⟨[], { bk with value := none }, [Event.bgCreateKey, Event.bgDelete]⟩
        else
          ⟨["Impossible de restaurer les apps en arrière-plan: " ++ bk.deleteErr], bk,
           [Event.bgCreateKey, Event.bgDelete]⟩
    | some v =>
      if bk.setOk then
        ⟨[], { bk with value := some v }, [Event.bgCreateKey, Event.bgSet v]⟩
      else
        ⟨["Impossible de restaurer les apps en arrière-plan: " ++ bk.setErr], bk,
         [Event.bgCreateKey, Event.bgSet v]⟩

/-- `performance._stop_onedrive_process`. -/
def stop_onedrive_process_perf (tk : Taskkill) : Bool × List String :=
  let stopped := tk.rc == 0
  if ¬ stopped ∧ tk.stderr ≠ "" then (stopped, [tk.stderr])
  else (stopped, [])

/-- `max_performance._stop_onedrive_process`. -/
def stop_onedrive_process_max (tk : Taskkill) : Bool × List String :=
  if tk.rc == 0 then (true, [])
  else if tk.stderr ≠ "" then (false, [tk.stderr])
  else (false, [])

/-- `apply_performance_profile`.  `backupRoot` stands for the
timestamp-named session directory path built by `_backup_root()`. -/
def apply_performance_profile (platform : String) (rk : RunKey) (bk : BgKey)
    (tk : Taskkill) (backupRoot : String) :
    PerformanceResult × RunKey × BgKey × List Event :=
  let ew := ensure_windows_performance platform
  if ¬ ew.1 then
    (⟨false, false, false, none, ew.2⟩, rk, bk, [])
  else
    let od := disable_onedrive_run rk
    let bg := disable_background_apps bk
    let tkr := stop_onedrive_process_perf tk
    let manifest := [("onedrive_run_value", optStr od.previous),
                     ("background_previous", optInt bg.previous)]
    (⟨od.disabled, bg.disabled, tkr.1, some backupRoot,
      ew.2 ++ od.errors ++ bg.errors ++ tkr.2⟩,
     od.key, bg.key,
     [Event.mkdirSession] ++ od.events ++ bg.events ++ [Event.taskkill]
       ++ [Event.writeManifest manifest])

/-- `dict.get` returning Python `None` (modelled as `jnull`) when absent. -/
def getField (m : List (String × JValue)) (k : String) : JValue :=
  (jget m k).getD JValue.jnull

/-- Field parse used by both restores:
`v = manifest.get(k); if not isinstance(v, str): v = None`. -/
def parseStrField (m : List (String × JValue)) (k : String) : Option String :=
  match getField m k with
  | JValue.jstr s => some s
  | _ => none

/-- Field parse of `restore_latest_performance` for `background_previous`:
`if not isinstance(v, int): v = None`.  In Python a `bool` passes the
`isinstance(v, int)` test (`True` is the integer 1, `False` is 0). -/
def parseIntField (m : List (String × JValue)) (k : String) : Option Int :=
  match getField m k with
  | JValue.jint n => some n
  | JValue.jbool b => some (if b then 1 else 0)
  | _ => none

/-- `restore_latest_performance`. -/
def restore_latest_performance (platform : String) (st : BackupStore)
    (rk : RunKey) (bk : BgKey) :
    PerformanceResult × RunKey × BgKey × List Event :=
  let ew := ensure_windows_performance platform
  if ¬ ew.1 then
    (⟨false, false, false, none, ew.2⟩, rk, bk, [])
  else if ¬ st.rootExists then
    (⟨false, false, false, none, ["Aucune sauvegarde disponible."]⟩, rk, bk, [])
  else
    match latestSession true st.entries with
    | none =>
      (⟨false, false, false, none, ["Aucune sauvegarde disponible."]⟩, rk, bk, [])
    | some latestBackup =>
      let manifest := st.manifestOf latestBackup
      if manifest.isEmpty then
        (⟨false, false, false, some latestBackup, ["Manifest introuvable."]⟩, rk, bk, [])
      else
        let onedriveValue := parseStrField manifest "onedrive_run_value"
        let backgroundValue := parseIntField manifest "background_previous"
        let od := restore_onedrive_run onedriveValue rk
        let bg := restore_background_apps backgroundValue bk
        (⟨false, false, false, some latestBackup, od.errors ++ bg.errors⟩,
         od.key, bg.key, od.events ++ bg.events)

/-! ### MaxPerformance -/

/-- The fixed service target set, in its `SERVICE_TARGETS` iteration order. -/
def SERVICE_TARGETS : List String := ["WSearch", "SysMain", "DiagTrack"]

/-- ASCII upper-casing (service start types are ASCII). -/
def pyCharUpper (c : Char) : Char :=
  if 'a' ≤ c ∧ c ≤ 'z' then Char.ofNat (c.toNat - 32) else c

/-- ASCII lower-casing. -/
def pyCharLower (c : Char) : Char :=
  if 'A' ≤ c ∧ c ≤ 'Z' then Char.ofNat (c.toNat + 32) else c

def pyUpper (s : String) : String := String.mk (s.data.map pyCharUpper)

def pyLower (s : String) : String := String.mk (s.data.map pyCharLower)

/-- `_normalize_start_type`. -/
def normalize_start_type (startType : String) : String :=
  let upper := pyUpper startType
  if upper = "AUTO_START" then "auto"
  else if upper = "DEMAND_START" then "demand"
  else if upper = "DISABLED" then "disabled"
  else if upper = "AUTO" then "auto"
  else if upper = "DEMAND" then "demand"
  else pyLower startType

/-- Accumulator of `apply_max_performance_profile`'s service loop. -/
structure SvcAcc where
  states : List (String × JValue)
  disabled : List String
  indexing : Bool
  errors : List String
  events : List Event

/-- The power-scheme block of `apply_max_performance_profile`: read the
active scheme's replacement candidate and activate it when found.
Returns `(power_scheme_set, errors, events)`. -/
def powerOutcome (pw : PowerWorld) : Bool × List String × List Event :=
  match pw.highPerfScheme with
  | some g =>
    if pw.setOk g then (true, [], [Event.setScheme g])
    else (false, ["Impossible d'activer le mode Performances élevées."],
          [Event.setScheme g])
  | none =>
    (false, ["Mode Performances élevées indisponible sur ce système."], [])

/-- One iteration of the `for service_name in SERVICE_TARGETS` loop. -/
def maxServiceStep (sw : ServiceWorld) (acc : SvcAcc) (s : String) : SvcAcc :=
  let startType := sw.startTypeOf s
  let running := sw.runningOf s
  let acc := { acc with events := acc.events ++ [Event.queryStart s, Event.queryRun s] }
  match startType, running with
  | some t, some r =>
    let acc := { acc with
      states := upsert s
        (JValue.jobj [("start_type", JValue.jstr t), ("was_running", JValue.jbool r)])
        acc.states }
    let acc := if r then { acc with events := acc.events ++ [Event.stopSvc s] } else acc
    let acc := { acc with events := acc.events ++ [Event.configSvc s "disabled"] }
    if sw.configOk s "disabled" then
      { acc with
        disabled := acc.disabled ++ [s],
        indexing := acc.indexing || (s == "WSearch") }
    else
      { acc with errors := acc.errors ++ ["Impossible de désactiver le service " ++ s ++ "."] }
  | _, _ =>
    { acc with errors := acc.errors ++ ["Impossible de lire l'état du service " ++ s ++ "."] }

/-- `apply_max_performance_profile`.  `backupRoot` stands for the
timestamp-named session directory path built by `_backup_root()`. -/
def apply_max_performance_profile (platform : String) (sw : ServiceWorld)
    (pw : PowerWorld) (rk : RunKey) (tk : Taskkill) (backupRoot : String) :
    MaxPerformanceResult × RunKey × List Event :=
  let ew := ensure_windows_max platform
  if ¬ ew.1 then
    (⟨[], false, false, false, false, none, ew.2⟩, rk, [])
  else
    let a := SERVICE_TARGETS.foldl (maxServiceStep sw) ⟨[], [], false, ew.2, []⟩
    let previousScheme := pw.activeScheme
    let power := powerOutcome pw
    let od := disable_onedrive_run rk
    let tkr := stop_onedrive_process_max tk
    let manifest := [("services", JValue.jobj a.states),
                     ("power_scheme", optStr previousScheme),
                     ("onedrive_run_value", optStr od.previous)]
    (⟨a.disabled, a.indexing, power.1, od.disabled, tkr.1, some backupRoot,
      a.errors ++ power.2.1 ++ od.errors ++ tkr.2⟩,
     od.key,
     [Event.mkdirSession] ++ a.events ++ [Event.getActiveScheme, Event.listSchemes]
       ++ power.2.2 ++ od.events ++ [Event.taskkill] ++ [Event.writeManifest manifest])

/-- One iteration of `restore_latest_max_performance`'s loop over the
captured `services` mapping. -/
def restoreServiceStep (sw : ServiceWorld) (acc : List String × List Event)
    (kv : String × JValue) : List String × List Event :=
  match kv.2 with
  | JValue.jobj state =>
    let startType := getField state "start_type"
    let wasRunning := getField state "was_running"
    let acc :=
      match startType with
      | JValue.jstr t =>
        let normalized := normalize_start_type t
        if sw.configOk kv.1 normalized then
          (acc.1, acc.2 ++ [Event.configSvc kv.1 normalized])
        else
          (acc.1 ++ ["Impossible de restaurer le service " ++ kv.1 ++ "."],
           acc.2 ++ [Event.configSvc kv.1 normalized])
      | _ => acc
    match wasRunning with
    | JValue.jbool true => (acc.1, acc.2 ++ [Event.startSvc kv.1])
    | _ => acc
  | _ => acc

/-- `restore_latest_max_performance`. -/
def restore_latest_max_performance (platform : String) (st : BackupStore)
    (sw : ServiceWorld) (pw : PowerWorld) (rk : RunKey) :
    MaxPerformanceResult × RunKey × List Event :=
  let ew := ensure_windows_max platform
  if ¬ ew.1 then
    (⟨[], false, false, false, false, none, ew.2⟩, rk, [])
  else if ¬ st.rootExists then
    (⟨[], false, false, false, false, none, ["Aucune sauvegarde disponible."]⟩, rk, [])
  else
    match latestSession true st.entries with
    | none =>
      (⟨[], false, false, false, false, none, ["Aucune sauvegarde disponible."]⟩, rk, [])
    | some latestBackup =>
      let manifest := st.manifestOf latestBackup
      if manifest.isEmpty then
        (⟨[], false, false, false, false, some latestBackup, ["Manifest introuvable."]⟩,
         rk, [])
      else
        let svc : List String × List Event :=
          match getField manifest "services" with
          | JValue.jobj items => items.foldl (restoreServiceStep sw) ([], [])
          | _ => ([], [])
        let power : List String × List Event :=
          match getField manifest "power_scheme" with
          | JValue.jstr g =>
            if pw.setOk g then ([], [Event.setScheme g])
            else (["Impossible de restaurer le plan d'alimentation."], [Event.setScheme g])
          | _ => ([], [])
        let onedriveValue := parseStrField manifest "onedrive_run_value"
        let od := restore_onedrive_run onedriveValue rk
        (⟨[], false, false, false, false, some latestBackup,
          svc.1 ++ power.1 ++ od.errors⟩,
         od.key, svc.2 ++ power.2 ++ od.events)

/-! ## Lemmas: counters of the per-entry move loops -/

theorem moveEntriesStep_scanned (w : CleanupWorld) (src dst : String)
    (acc : MoveAcc) (e : String) :
    (moveEntriesStep w src dst acc e).scanned = acc.scanned + 1 := by
  unfold moveEntriesStep
  by_cases h : w.moveOk src e = true <;> simp [h]

theorem moveEntriesStep_moved_failed (w : CleanupWorld) (src dst : String)
    (acc : MoveAcc) (e : String) :
    (moveEntriesStep w src dst acc e).moved + (moveEntriesStep w src dst acc e).failed
      = acc.moved + acc.failed + 1 := by
  unfold moveEntriesStep
  by_cases h : w.moveOk src e = true <;> simp [h] <;> omega

theorem moveFold_scanned (w : CleanupWorld) (src dst : String) :
    ∀ (es : List String) (acc : MoveAcc),
    (es.foldl (moveEntriesStep w src dst) acc).scanned = acc.scanned + es.length := by
  intro es
  induction es with
  | nil => intro acc; simp
  | cons e es ih =>
    intro acc
    simp only [List.foldl_cons, List.length_cons]
    rw [ih, moveEntriesStep_scanned]
    omega

theorem moveFold_moved_failed (w : CleanupWorld) (src dst : String) :
    ∀ (es : List String) (acc : MoveAcc),
    (es.foldl (moveEntriesStep w src dst) acc).moved
      + (es.foldl (moveEntriesStep w src dst) acc).failed
      = acc.moved + acc.failed + es.length := by
  intro es
  induction es with
  | nil => intro acc; simp
  | cons e es ih =>
    intro acc
    simp only [List.foldl_cons, List.length_cons]
    rw [ih, moveEntriesStep_moved_failed]
    omega

theorem cleanupDirStep_counts (w : CleanupWorld) (backupsRoot timestamp : String)
    (acc : CleanupAcc) (d : String) :
    (cleanupDirStep w backupsRoot timestamp acc d).scanned + acc.moved + acc.failed
      = (cleanupDirStep w backupsRoot timestamp acc d).moved
        + (cleanupDirStep w backupsRoot timestamp acc d).failed + acc.scanned := by
  unfold cleanupDirStep
  by_cases h1 : acc.fs.dirExists d = true
  · by_cases h2 : (w.writable d && w.readable d) = true
    · simp only [h1, h2, not_true_eq_false, Bool.true_eq_false, if_false, if_true,
        Bool.false_eq_true, ite_false, ite_true]
      simp only [moveFold_scanned, moveFold_moved_failed]
      omega
    · simp [h1, h2]; omega
  · simp [h1]; omega

theorem restoreDirStep_counts (w : CleanupWorld) (latestBackup : String)
    (acc : RestoreAcc) (kv : String × String) :
    (restoreDirStep w latestBackup acc kv).scanned + acc.moved + acc.failed
      = (restoreDirStep w latestBackup acc kv).moved
        + (restoreDirStep w latestBackup acc kv).failed + acc.scanned := by
  unfold restoreDirStep
  by_cases h1 : acc.fs.dirExists (winJoin latestBackup kv.1) = true
  · by_cases h2 : (¬ acc.fs.dirExists kv.2 = true ∧ ¬ w.mkdirOk kv.2 = true)
    · simp [h1, h2]; omega
    · simp only [h1, h2, not_true_eq_false, Bool.true_eq_false, if_false, if_true,
        Bool.false_eq_true, ite_false, ite_true]
      simp only [moveFold_scanned, moveFold_moved_failed]
      omega
  · simp [h1]; omega

theorem cleanupFold_counts (w : CleanupWorld) (backupsRoot timestamp : String) :
    ∀ (ds : List String) (acc : CleanupAcc),
    (ds.foldl (cleanupDirStep w backupsRoot timestamp) acc).scanned
      + acc.moved + acc.failed
    = (ds.foldl (cleanupDirStep w backupsRoot timestamp) acc).moved
      + (ds.foldl (cleanupDirStep w backupsRoot timestamp) acc).failed
      + acc.scanned := by
  intro ds
  induction ds with
  | nil => intro acc; simp; omega
  | cons d ds ih =>
    intro acc
    simp only [List.foldl_cons]
    have hih := ih (cleanupDirStep w backupsRoot timestamp acc d)
    have hstep := cleanupDirStep_counts w backupsRoot timestamp acc d
    omega

theorem restoreFold_counts (w : CleanupWorld) (latestBackup : String) :
    ∀ (items : List (String × String)) (acc : RestoreAcc),
    (items.foldl (restoreDirStep w latestBackup) acc).scanned
      + acc.moved + acc.failed
    = (items.foldl (restoreDirStep w latestBackup) acc).moved
      + (items.foldl (restoreDirStep w latestBackup) acc).failed
      + acc.scanned := by
  intro items
  induction items with
  | nil => intro acc; simp; omega
  | cons kv items ih =>
    intro acc
    simp only [List.foldl_cons]
    have hih := ih (restoreDirStep w latestBackup acc kv)
    have hstep := restoreDirStep_counts w latestBackup acc kv
    omega

/-- C9.  For every Cleanup apply call and every Cleanup restore call, the
returned result satisfies `scanned = moved + failed`: each scanned entry is
counted as exactly one of moved or failed, and skipped targets contribute
nothing to `scanned`. -/
theorem cleanup_scanned_eq_moved_add_failed
    (w : CleanupWorld) (env : CleanupEnv) (backupsRoot timestamp : String)
    (fs : CleanupFS) (w' : CleanupWorld) (backupsRoot' : String) (fs' : CleanupFS) :
    ((safe_cleanup w env backupsRoot timestamp fs).1.scanned
      = (safe_cleanup w env backupsRoot timestamp fs).1.moved
        + (safe_cleanup w env backupsRoot timestamp fs).1.failed)
    ∧ ((restore_latest_backup w' backupsRoot' fs').1.scanned
      = (restore_latest_backup w' backupsRoot' fs').1.moved
        + (restore_latest_backup w' backupsRoot' fs').1.failed) := by
  constructor
  · have h := cleanupFold_counts w backupsRoot timestamp (collect_temp_dirs env)
      ⟨fs, [], 0, 0, 0, 0, []⟩
    unfold safe_cleanup
    by_cases hz : ((collect_temp_dirs env).foldl
        (cleanupDirStep w backupsRoot timestamp) ⟨fs, [], 0, 0, 0, 0, []⟩).moved = 0
      ∧ ((collect_temp_dirs env).foldl
        (cleanupDirStep w backupsRoot timestamp) ⟨fs, [], 0, 0, 0, 0, []⟩).failed = 0
    · simp only [hz, if_true, and_true]
      simp only at h
      omega
    · simp only [hz, if_false]
      simp only at h
      omega
  · unfold restore_latest_backup
    by_cases h1 : fs'.dirExists backupsRoot' = true
    · simp only [h1, Bool.true_eq_false, not_true_eq_false, if_false, Bool.not_true]
      cases hls : latestSession true (listingEntries fs' backupsRoot') with
      | none => simp
      | some name =>
        simp only
        by_cases h2 : (readCleanupManifest fs' (winJoin backupsRoot' name)).isEmpty = true
        · simp [h2]
        · have h2' := Bool.eq_false_iff.mpr h2
          simp only [h2', Bool.false_eq_true, if_false]
          have h := restoreFold_counts w' (winJoin backupsRoot' name)
            (readCleanupManifest fs' (winJoin backupsRoot' name)) ⟨fs', 0, 0, 0, 0, []⟩
          simp only at h
          omega
    · have h1' := Bool.eq_false_iff.mpr h1
      simp [h1']

/-- C6.  For every Cleanup restore call where no session exists or the
latest session's manifest is empty or absent, the call returns a result with
`moved = 0`, `failed = 0`, `skipped = 1` and exactly one explanatory error
message (and `scanned = 0`, no backup reference, and the filesystem
untouched).  The embedding is a total function, so no exception is raised on
this path: every branch returns a `CleanupResult`. -/
theorem cleanup_restore_nothing_to_restore
    (w : CleanupWorld) (backupsRoot : String) (fs : CleanupFS)
    (h : fs.dirExists backupsRoot = false
      ∨ latestSession true (listingEntries fs backupsRoot) = none
      ∨ ∃ name, latestSession true (listingEntries fs backupsRoot) = some name
          ∧ readCleanupManifest fs (winJoin backupsRoot name) = []) :
    (restore_latest_backup w backupsRoot fs).1.scanned = 0
    ∧ (restore_latest_backup w backupsRoot fs).1.moved = 0
    ∧ (restore_latest_backup w backupsRoot fs).1.failed = 0
    ∧ (restore_latest_backup w backupsRoot fs).1.skipped = 1
    ∧ (restore_latest_backup w backupsRoot fs).1.errors.length = 1
    ∧ (restore_latest_backup w backupsRoot fs).1.backup_dir = none
    ∧ (restore_latest_backup w backupsRoot fs).2 = fs := by
  unfold restore_latest_backup
  by_cases hroot : fs.dirExists backupsRoot = true
  · simp only [hroot, not_true_eq_false, if_false]
    rcases h with h | h | h
    · rw [hroot] at h; simp at h
    · rw [h]
      simp
    · obtain ⟨name, hname, hmani⟩ := h
      rw [hname]
      simp only [hmani, List.isEmpty_nil, if_true]
      simp
  · have hroot' := Bool.eq_false_iff.mpr hroot
    simp [hroot']

/-- C6 witness: a filesystem with no backups root at all. -/
theorem cleanup_restore_nothing_to_restore_witness :
    let w : CleanupWorld :=
      ⟨fun _ => true, fun _ => true, fun _ _ => true, fun _ _ => "",
       fun _ => true, fun _ => ""⟩
    (restore_latest_backup w "B" ⟨[], []⟩).1.scanned = 0
    ∧ (restore_latest_backup w "B" ⟨[], []⟩).1.moved = 0
    ∧ (restore_latest_backup w "B" ⟨[], []⟩).1.failed = 0
    ∧ (restore_latest_backup w "B" ⟨[], []⟩).1.skipped = 1
    ∧ (restore_latest_backup w "B" ⟨[], []⟩).1.errors.length = 1
    ∧ (restore_latest_backup w "B" ⟨[], []⟩).1.backup_dir = none
    ∧ (restore_latest_backup w "B" ⟨[], []⟩).2 = ⟨[], []⟩ :=
  cleanup_restore_nothing_to_restore _ "B" ⟨[], []⟩ (Or.inl (by decide))

/-- C5.  `latestSession` returns `none` when the root is absent or has no
subdirectories; otherwise it returns the maximum subdirectory name in Python
string order (it sorts the subdirectory names descending and takes the
first).  On sessions named `20240101_000000`, `20240102_000000`,
`20240103_000000` it selects `20240103_000000`.  Both
`restore_latest_backup` and the Performance/MaxPerformance restores resolve
their latest session through this function. -/
theorem latestSession_spec :
    (∀ entries : List DirEntry, latestSession false entries = none)
    ∧ (∀ entries : List DirEntry,
        entries.filter (fun e => e.isDir) = [] → latestSession true entries = none)
    ∧ (∀ (entries : List DirEntry) (m : String),
        latestSession true entries = some m →
        m ∈ (entries.filter (fun e => e.isDir)).map (fun e => e.name)
        ∧ ∀ y ∈ (entries.filter (fun e => e.isDir)).map (fun e => e.name),
            pyStrLt m y = false)
    ∧ latestSession true
        [⟨"20240101_000000", true⟩, ⟨"20240102_000000", true⟩,
         ⟨"20240103_000000", true⟩]
      = some "20240103_000000" := by
  refine ⟨fun entries => rfl, fun entries h => ?_, fun entries m h => ?_, by decide⟩
  · simp [latestSession, h, sortedDescending, List.insertionSort]
  · exact sortedDescending_head_max (by simpa [latestSession] using h)

/-- C5 witness: apply the theorem's conditional parts at concrete listings. -/
theorem latestSession_spec_witness :
    latestSession true [⟨"somefile.txt", false⟩] = none
    ∧ ("20240103_000000" ∈
        (([⟨"20240101_000000", true⟩, ⟨"20240102_000000", true⟩,
           ⟨"20240103_000000", true⟩] : List DirEntry).filter
            (fun e => e.isDir)).map (fun e => e.name)
      ∧ ∀ y ∈ (([⟨"20240101_000000", true⟩, ⟨"20240102_000000", true⟩,
           ⟨"20240103_000000", true⟩] : List DirEntry).filter
            (fun e => e.isDir)).map (fun e => e.name),
          pyStrLt "20240103_000000" y = false) :=
  ⟨latestSession_spec.2.1 [⟨"somefile.txt", false⟩] (by decide),
   latestSession_spec.2.2.1 _ "20240103_000000" (by decide)⟩

/-- C3 counterexample.  The claim asserts that on a non-Windows platform
*all three* engines short-circuit with a platform-unsupported result and
perform no mutation.  But `cleanup.py` contains no platform guard at all:
`safe_cleanup` and `restore_latest_backup` never consult `sys.platform`
(which is why the embedding of the Cleanup engine takes no platform input).
On this concrete input — reachable on any platform, Windows or not — the
Cleanup apply moves two entries, reports no error, and empties the first
temp directory, instead of returning the all-zero single-error result the
claim requires. -/
theorem cleanup_no_platform_guard_counterexample :
    (safe_cleanup
        ⟨fun _ => true, fun _ => true, fun _ _ => true, fun _ _ => "",
         fun _ => true, fun _ => ""⟩
        ⟨some "X_Temp", none, some "X"⟩ "B" "T1"
        ⟨[("X_Temp", ["a"]), ("X\\Temp", ["b"])], []⟩).1.moved = 2
    ∧ (safe_cleanup
        ⟨fun _ => true, fun _ => true, fun _ _ => true, fun _ _ => "",
         fun _ => true, fun _ => ""⟩
        ⟨some "X_Temp", none, some "X"⟩ "B" "T1"
        ⟨[("X_Temp", ["a"]), ("X\\Temp", ["b"])], []⟩).1.errors = []
    ∧ (safe_cleanup
        ⟨fun _ => true, fun _ => true, fun _ _ => true, fun _ _ => "",
         fun _ => true, fun _ => ""⟩
        ⟨some "X_Temp", none, some "X"⟩ "B" "T1"
        ⟨[("X_Temp", ["a"]), ("X\\Temp", ["b"])], []⟩).2.dirList "X_Temp"
      = some [] := by
  decide

/-- C3 (amended).  On a non-Windows platform, every apply and restore entry
point of the Performance and MaxPerformance engines returns immediately with
the platform-unsupported result — all flags false, no backup directory,
exactly the one explanatory error — leaves the registry state untouched and
performs no adapter call at all (empty event trace); the Cleanup engine has
no platform guard and runs its normal logic on any platform. -/
theorem non_windows_short_circuit (platform : String) (hp : platform ≠ "win32")
    (rk : RunKey) (bk : BgKey) (tk : Taskkill) (backupRoot : String)
    (st : BackupStore) (sw : ServiceWorld) (pw : PowerWorld) :
    apply_performance_profile platform rk bk tk backupRoot
      = (⟨false, false, false, none,
          ["Profil Performance disponible uniquement sur Windows."]⟩, rk, bk, [])
    ∧ restore_latest_performance platform st rk bk
      = (⟨false, false, false, none,
          ["Profil Performance disponible uniquement sur Windows."]⟩, rk, bk, [])
    ∧ apply_max_performance_profile platform sw pw rk tk backupRoot
      = (⟨[], false, false, false, false, none,
          ["Profil Max Performance disponible uniquement sur Windows."]⟩, rk, [])
    ∧ restore_latest_max_performance platform st sw pw rk
      = (⟨[], false, false, false, false, none,
          ["Profil Max Performance disponible uniquement sur Windows."]⟩, rk, []) := by
  refine ⟨?_, ?_, ?_, ?_⟩
  · unfold apply_performance_profile ensure_windows_performance
    simp [hp]
  · unfold restore_latest_performance ensure_windows_performance
    simp [hp]
  · unfold apply_max_performance_profile ensure_windows_max
    simp [hp]
  · unfold restore_latest_max_performance ensure_windows_max
    simp [hp]

/-- C3 witness: the amended theorem applied on platform `linux` with
concrete worlds. -/
theorem non_windows_short_circuit_witness :
    apply_performance_profile "linux"
        ⟨true, "", some "od", true, "", true, "", true, ""⟩
        ⟨true, "", some 0, true, "", true, ""⟩ ⟨0, ""⟩ "B"
      = (⟨false, false, false, none,
          ["Profil Performance disponible uniquement sur Windows."]⟩,
         ⟨true, "", some "od", true, "", true, "", true, ""⟩,
         ⟨true, "", some 0, true, "", true, ""⟩, [])
    ∧ restore_latest_max_performance "linux" ⟨false, [], fun _ => []⟩
        ⟨fun _ => none, fun _ => none, fun _ => false, fun _ _ => false, fun _ => false⟩
        ⟨none, none, fun _ => false⟩
        ⟨true, "", some "od", true, "", true, "", true, ""⟩
      = (⟨[], false, false, false, false, none,
          ["Profil Max Performance disponible uniquement sur Windows."]⟩,
         ⟨true, "", some "od", true, "", true, "", true, ""⟩, []) := by
  have h := non_windows_short_circuit "linux" (by decide)
    ⟨true, "", some "od", true, "", true, "", true, ""⟩
    ⟨true, "", some 0, true, "", true, ""⟩ ⟨0, ""⟩ "B"
    ⟨false, [], fun _ => []⟩
    ⟨fun _ => none, fun _ => none, fun _ => false, fun _ _ => false, fun _ => false⟩
    ⟨none, none, fun _ => false⟩
  exact ⟨h.1, h.2.2.2⟩

/-! ## Lemmas: normal form of the MaxPerformance service loop -/

/-- Both queries of a service succeeded. -/
def svcQueriesOk (sw : ServiceWorld) (s : String) : Bool :=
  (sw.startTypeOf s).isSome && (sw.runningOf s).isSome

/-- The service ends up in `services_disabled`. -/
def svcDisabledOk (sw : ServiceWorld) (s : String) : Bool :=
  svcQueriesOk sw s && sw.configOk s "disabled"

/-- The captured state record of a service, when its queries succeed. -/
def svcRecord (sw : ServiceWorld) (s : String) : Option JValue :=
  match sw.startTypeOf s, sw.runningOf s with
  | some t, some r =>
    some (JValue.jobj [("start_type", JValue.jstr t), ("was_running", JValue.jbool r)])
  | _, _ => none

/-- The errors one service contributes to the apply loop. -/
def svcErrors (sw : ServiceWorld) (s : String) : List String :=
  if svcQueriesOk sw s then
    if sw.configOk s "disabled" then []
    else ["Impossible de désactiver le service " ++ s ++ "."]
  else ["Impossible de lire l'état du service " ++ s ++ "."]

/-- The adapter calls one service contributes to the apply loop. -/
def svcEvents (sw : ServiceWorld) (s : String) : List Event :=
  [Event.queryStart s, Event.queryRun s] ++
    match sw.startTypeOf s, sw.runningOf s with
    | some _, some r =>
      (if r then [Event.stopSvc s] else []) ++ [Event.configSvc s "disabled"]
    | _, _ => []

theorem maxServiceStep_disabled (sw : ServiceWorld) (acc : SvcAcc) (s : String) :
    (maxServiceStep sw acc s).disabled =
      acc.disabled ++ (if svcDisabledOk sw s then [s] else []) := by
  unfold maxServiceStep svcDisabledOk svcQueriesOk
  rcases hst : sw.startTypeOf s with _ | t <;> rcases hr : sw.runningOf s with _ | r
  · simp
  · simp
  · simp
  · by_cases hc : sw.configOk s "disabled" = true <;> by_cases hrr : r = true <;>
      simp [hc, hrr]

theorem maxServiceStep_indexing (sw : ServiceWorld) (acc : SvcAcc) (s : String) :
    (maxServiceStep sw acc s).indexing =
      (acc.indexing || (svcDisabledOk sw s && s == "WSearch")) := by
  unfold maxServiceStep svcDisabledOk svcQueriesOk
  rcases hst : sw.startTypeOf s with _ | t <;> rcases hr : sw.runningOf s with _ | r
  · simp
  · simp
  · simp
  · by_cases hc : sw.configOk s "disabled" = true <;> by_cases hrr : r = true <;>
      simp [hc, hrr]

theorem maxServiceStep_states (sw : ServiceWorld) (acc : SvcAcc) (s : String) :
    (maxServiceStep sw acc s).states =
      (match svcRecord sw s with
       | some v => upsert s v acc.states
       | none => acc.states) := by
  unfold maxServiceStep svcRecord
  rcases hst : sw.startTypeOf s with _ | t <;> rcases hr : sw.runningOf s with _ | r
  · simp
  · simp
  · simp
  · by_cases hc : sw.configOk s "disabled" = true <;> by_cases hrr : r = true <;>
      simp [hc, hrr]

theorem maxServiceStep_errors (sw : ServiceWorld) (acc : SvcAcc) (s : String) :
    (maxServiceStep sw acc s).errors = acc.errors ++ svcErrors sw s := by
  unfold maxServiceStep svcErrors svcQueriesOk
  rcases hst : sw.startTypeOf s with _ | t <;> rcases hr : sw.runningOf s with _ | r
  · simp
  · simp
  · simp
  · by_cases hc : sw.configOk s "disabled" = true <;> by_cases hrr : r = true <;>
      simp [hc, hrr]

theorem maxServiceStep_events (sw : ServiceWorld) (acc : SvcAcc) (s : String) :
    (maxServiceStep sw acc s).events = acc.events ++ svcEvents sw s := by
  unfold maxServiceStep svcEvents
  rcases hst : sw.startTypeOf s with _ | t <;> rcases hr : sw.runningOf s with _ | r
  · simp
  · simp
  · simp
  · by_cases hc : sw.configOk s "disabled" = true <;> by_cases hrr : r = true <;>
      simp [hc, hrr]

theorem maxFold_disabled (sw : ServiceWorld) :
    ∀ (targets : List String) (acc : SvcAcc),
    (targets.foldl (maxServiceStep sw) acc).disabled
      = acc.disabled ++ targets.filter (svcDisabledOk sw) := by
  intro targets
  induction targets with
  | nil => intro acc; simp
  | cons s targets ih =>
    intro acc
    simp only [List.foldl_cons, List.filter_cons]
    rw [ih, maxServiceStep_disabled]
    by_cases h : svcDisabledOk sw s = true <;> simp [h]

theorem maxFold_indexing (sw : ServiceWorld) :
    ∀ (targets : List String) (acc : SvcAcc),
    (targets.foldl (maxServiceStep sw) acc).indexing
      = (acc.indexing || targets.any (fun s => svcDisabledOk sw s && s == "WSearch")) := by
  intro targets
  induction targets with
  | nil => intro acc; simp
  | cons s targets ih =>
    intro acc
    simp only [List.foldl_cons, List.any_cons]
    rw [ih, maxServiceStep_indexing, Bool.or_assoc]

theorem maxFold_errors (sw : ServiceWorld) :
    ∀ (targets : List String) (acc : SvcAcc),
    (targets.foldl (maxServiceStep sw) acc).errors
      = acc.errors ++ (targets.map (svcErrors sw)).flatten := by
  intro targets
  induction targets with
  | nil => intro acc; simp
  | cons s targets ih =>
    intro acc
    simp only [List.foldl_cons, List.map_cons, List.flatten_cons]
    rw [ih, maxServiceStep_errors]
    simp

theorem maxFold_events (sw : ServiceWorld) :
    ∀ (targets : List String) (acc : SvcAcc),
    (targets.foldl (maxServiceStep sw) acc).events
      = acc.events ++ (targets.map (svcEvents sw)).flatten := by
  intro targets
  induction targets with
  | nil => intro acc; simp
  | cons s targets ih =>
    intro acc
    simp only [List.foldl_cons, List.map_cons, List.flatten_cons]
    rw [ih, maxServiceStep_events]
    simp

theorem upsert_eq_append {β : Type} (k : String) (v : β) :
    ∀ (l : List (String × β)), l.lookup k = none → upsert k v l = l ++ [(k, v)] := by
  intro l
  induction l with
  | nil => intro _; rfl
  | cons kv l ih =>
    obtain ⟨a, b⟩ := kv
    intro h
    by_cases hk : (k == a) = true
    · exfalso
      simp [List.lookup, hk] at h
    · have hk' : (k == a) = false := Bool.eq_false_iff.mpr hk
      simp only [List.lookup, hk'] at h
      have hane : ¬ a = k := by
        intro he
        subst he
        simp at hk'
      unfold upsert
      simp [hane, ih h]

theorem lookup_append_none {β : Type} (k : String) :
    ∀ (l₁ l₂ : List (String × β)), l₁.lookup k = none → l₂.lookup k = none →
    (l₁ ++ l₂).lookup k = none := by
  intro l₁
  induction l₁ with
  | nil => intro l₂ _ h2; simpa using h2
  | cons kv l₁ ih =>
    obtain ⟨a, b⟩ := kv
    intro l₂ h1 h2
    by_cases hk : (k == a) = true
    · exfalso
      simp [List.lookup, hk] at h1
    · have hk' : (k == a) = false := Bool.eq_false_iff.mpr hk
      simp only [List.lookup, hk'] at h1
      simp only [List.cons_append, List.lookup, hk']
      exact ih l₂ h1 h2

theorem maxFold_states (sw : ServiceWorld) :
    ∀ (targets : List String) (acc : SvcAcc),
    targets.Nodup →
    (∀ t ∈ targets, acc.states.lookup t = none) →
    (targets.foldl (maxServiceStep sw) acc).states
      = acc.states
        ++ targets.filterMap (fun s => (svcRecord sw s).map (fun v => (s, v))) := by
  intro targets
  induction targets with
  | nil => intro acc _ _; simp
  | cons s targets ih =>
    intro acc hnd habs
    simp only [List.foldl_cons, List.filterMap_cons]
    have hnd' := (List.nodup_cons.mp hnd).2
    have hsne := (List.nodup_cons.mp hnd).1
    cases hrec : svcRecord sw s with
    | none =>
      have hs' : (maxServiceStep sw acc s).states = acc.states := by
        rw [maxServiceStep_states, hrec]
      rw [ih (maxServiceStep sw acc s) hnd'
        (by intro t ht; rw [hs']; exact habs t (List.mem_cons_of_mem s ht))]
      rw [hs']
      simp
    | some v =>
      have hup := upsert_eq_append s v acc.states (habs s (List.mem_cons_self s targets))
      have hs' : (maxServiceStep sw acc s).states = acc.states ++ [(s, v)] := by
        rw [maxServiceStep_states, hrec]
        exact hup
      have habs' : ∀ t ∈ targets, ((maxServiceStep sw acc s).states.lookup t) = none := by
        intro t ht
        rw [hs']
        refine lookup_append_none t acc.states [(s, v)]
          (habs t (List.mem_cons_of_mem s ht)) ?_
        have htne : (t == s) = false := by
          simp only [beq_eq_false_iff_ne, ne_eq]
          intro he
          exact hsne (he ▸ ht)
        simp [List.lookup, htne]
      rw [ih (maxServiceStep sw acc s) hnd' habs']
      rw [hs']
      simp

/-- C10.  For every MaxPerformance apply call, the returned result's
`indexing_disabled` flag is true if and only if the service name `WSearch`
appears in the returned `services_disabled` list. -/
theorem maxperf_indexing_iff_wsearch (platform : String) (sw : ServiceWorld)
    (pw : PowerWorld) (rk : RunKey) (tk : Taskkill) (backupRoot : String) :
    (apply_max_performance_profile platform sw pw rk tk backupRoot).1.indexing_disabled
      = true
    ↔ "WSearch"
      ∈ (apply_max_performance_profile platform sw pw rk tk backupRoot).1.services_disabled := by
  unfold apply_max_performance_profile
  by_cases hw : platform = "win32"
  · simp only [ensure_windows_max, hw, ne_eq, not_true_eq_false, if_false,
      not_false_eq_true, if_true]
    simp only [maxFold_indexing, maxFold_disabled, List.nil_append, Bool.false_or]
    simp only [List.any_eq_true, List.mem_filter, Bool.and_eq_true, beq_iff_eq]
    constructor
    · rintro ⟨s, hmem, hok, rfl⟩
      exact ⟨hmem, hok⟩
    · rintro ⟨hmem, hok⟩
      exact ⟨"WSearch", hmem, hok, rfl⟩
  · simp [ensure_windows_max, hw]

/-! ## Lemmas: event classification for the registry-based engines -/

/-- Is this event the creation of the session directory? -/
def Event.isMkdir : Event → Bool
  | Event.mkdirSession => true
  | _ => false

/-- The manifests written along a trace, in order. -/
def writtenManifests (tr : List Event) : List (List (String × JValue)) :=
  tr.filterMap (fun e => match e with
    | Event.writeManifest m => some m
    | _ => none)

/-- An adapter-call event: neither the manifest write nor the session-dir
creation. -/
def Event.isPlain (e : Event) : Bool := !e.isWrite && !e.isMkdir

theorem disable_onedrive_run_previous (rk : RunKey) :
    (disable_onedrive_run rk).previous = if rk.openOk then rk.value else none := by
  unfold disable_onedrive_run
  by_cases ho : rk.openOk = true <;>
    cases hv : rk.value <;>
      by_cases hd : rk.deleteOk = true <;>
        simp [ho, hv, hd]

theorem disable_onedrive_run_events_plain (rk : RunKey) :
    (disable_onedrive_run rk).events.all Event.isPlain = true := by
  unfold disable_onedrive_run
  by_cases ho : rk.openOk = true <;>
    cases hv : rk.value <;>
      by_cases hd : rk.deleteOk = true <;>
        simp [ho, hv, hd, Event.isPlain, Event.isWrite, Event.isMkdir]

theorem restore_onedrive_run_events_plain (prev : Option String) (rk : RunKey) :
    (restore_onedrive_run prev rk).events.all Event.isPlain = true := by
  unfold restore_onedrive_run
  by_cases ho : rk.setOpenOk = true <;>
    cases hp : prev <;>
      cases hv : rk.value <;>
        by_cases hd : rk.deleteOk = true <;>
          by_cases hs : rk.setValueOk = true <;>
            simp [ho, hp, hv, hd, hs, Event.isPlain, Event.isWrite, Event.isMkdir]

theorem disable_background_apps_previous (bk : BgKey) :
    (disable_background_apps bk).previous = if bk.createOk then bk.value else none := by
  unfold disable_background_apps
  by_cases hc : bk.createOk = true <;>
    by_cases hs : bk.setOk = true <;>
      simp [hc, hs]

theorem disable_background_apps_events_plain (bk : BgKey) :
    (disable_background_apps bk).events.all Event.isPlain = true := by
  unfold disable_background_apps
  by_cases hc : bk.createOk = true <;>
    by_cases hs : bk.setOk = true <;>
      simp [hc, hs, Event.isPlain, Event.isWrite, Event.isMkdir]

theorem restore_background_apps_events_plain (prev : Option Int) (bk : BgKey) :
    (restore_background_apps prev bk).events.all Event.isPlain = true := by
  unfold restore_background_apps
  by_cases hc : bk.createOk = true <;>
    cases hp : prev <;>
      cases hv : bk.value <;>
        by_cases hd : bk.deleteOk = true <;>
          by_cases hs : bk.setOk = true <;>
            simp [hc, hp, hv, hd, hs, Event.isPlain, Event.isWrite, Event.isMkdir]

theorem svcEvents_plain (sw : ServiceWorld) (s : String) :
    (svcEvents sw s).all Event.isPlain = true := by
  unfold svcEvents
  cases hst : sw.startTypeOf s with
  | none =>
    cases hr : sw.runningOf s <;>
      simp [Event.isPlain, Event.isWrite, Event.isMkdir]
  | some t =>
    cases hr : sw.runningOf s with
    | none => simp [Event.isPlain, Event.isWrite, Event.isMkdir]
    | some r =>
      cases r <;> simp [Event.isPlain, Event.isWrite, Event.isMkdir]

theorem powerOutcome_events_plain (pw : PowerWorld) :
    (powerOutcome pw).2.2.all Event.isPlain = true := by
  unfold powerOutcome
  cases hg : pw.highPerfScheme with
  | none => simp
  | some g =>
    by_cases hs : pw.setOk g = true <;>
      simp [hs, Event.isPlain, Event.isWrite, Event.isMkdir]

theorem writtenManifests_nil_of_plain :
    ∀ tr : List Event, tr.all Event.isPlain = true → writtenManifests tr = [] := by
  intro tr
  induction tr with
  | nil => intro _; rfl
  | cons e tr ih =>
    intro h
    simp only [List.all_cons, Bool.and_eq_true] at h
    have hrest := ih h.2
    simp only [writtenManifests, List.filterMap_cons] at hrest ⊢
    cases e <;> simp only [] <;> try exact hrest
    exact absurd h.1 (by simp [Event.isPlain, Event.isWrite])

/-- The manifest `apply_performance_profile` writes: the pre-mutation
captures of the two registry values. -/
def perfManifest (rk : RunKey) (bk : BgKey) : List (String × JValue) :=
  [("onedrive_run_value", optStr (if rk.openOk then rk.value else none)),
   ("background_previous", optInt (if bk.createOk then bk.value else none))]

/-- The captured service map of a MaxPerformance apply call: one record per
target service whose two queries succeeded, holding the queried (pre-stop,
pre-disable) start type and running flag. -/
def maxServiceStates (sw : ServiceWorld) : List (String × JValue) :=
  SERVICE_TARGETS.filterMap (fun s => (svcRecord sw s).map (fun v => (s, v)))

/-- The manifest `apply_max_performance_profile` writes. -/
def maxManifest (sw : ServiceWorld) (pw : PowerWorld) (rk : RunKey) :
    List (String × JValue) :=
  [("services", JValue.jobj (maxServiceStates sw)),
   ("power_scheme", optStr pw.activeScheme),
   ("onedrive_run_value", optStr (if rk.openOk then rk.value else none))]

/-- Closed form of a Performance apply call on Windows. -/
theorem apply_performance_shape (rk : RunKey) (bk : BgKey) (tk : Taskkill)
    (backupRoot : String) :
    apply_performance_profile "win32" rk bk tk backupRoot
      = (⟨(disable_onedrive_run rk).disabled, (disable_background_apps bk).disabled,
          (stop_onedrive_process_perf tk).1, some backupRoot,
          (disable_onedrive_run rk).errors ++ (disable_background_apps bk).errors
            ++ (stop_onedrive_process_perf tk).2⟩,
         (disable_onedrive_run rk).key, (disable_background_apps bk).key,
         [Event.mkdirSession] ++ (disable_onedrive_run rk).events
           ++ (disable_background_apps bk).events ++ [Event.taskkill]
           ++ [Event.writeManifest (perfManifest rk bk)]) := by
  unfold apply_performance_profile perfManifest
  simp [ensure_windows_performance, disable_onedrive_run_previous,
    disable_background_apps_previous]

/-- Closed form of a MaxPerformance apply call on Windows. -/
theorem apply_max_shape (sw : ServiceWorld) (pw : PowerWorld) (rk : RunKey)
    (tk : Taskkill) (backupRoot : String) :
    apply_max_performance_profile "win32" sw pw rk tk backupRoot
      = (⟨SERVICE_TARGETS.filter (svcDisabledOk sw),
          SERVICE_TARGETS.any (fun s => svcDisabledOk sw s && s == "WSearch"),
          (powerOutcome pw).1, (disable_onedrive_run rk).disabled,
          (stop_onedrive_process_max tk).1, some backupRoot,
          (SERVICE_TARGETS.map (svcErrors sw)).flatten ++ (powerOutcome pw).2.1
            ++ (disable_onedrive_run rk).errors ++ (stop_onedrive_process_max tk).2⟩,
         (disable_onedrive_run rk).key,
         [Event.mkdirSession] ++ (SERVICE_TARGETS.map (svcEvents sw)).flatten
           ++ [Event.getActiveScheme, Event.listSchemes] ++ (powerOutcome pw).2.2
           ++ (disable_onedrive_run rk).events ++ [Event.taskkill]
           ++ [Event.writeManifest (maxManifest sw pw rk)]) := by
  have hdis := maxFold_disabled sw SERVICE_TARGETS ⟨[], [], false, [], []⟩
  have hidx := maxFold_indexing sw SERVICE_TARGETS ⟨[], [], false, [], []⟩
  have herr := maxFold_errors sw SERVICE_TARGETS ⟨[], [], false, [], []⟩
  have hev := maxFold_events sw SERVICE_TARGETS ⟨[], [], false, [], []⟩
  have hst := maxFold_states sw SERVICE_TARGETS ⟨[], [], false, [], []⟩
    (by decide) (by intro t _; rfl)
  unfold apply_max_performance_profile maxManifest maxServiceStates
  have hew : ensure_windows_max "win32" = (true, []) := by
    simp [ensure_windows_max]
  rw [hew]
  simp only at hdis hidx herr hev hst
  simp [hdis, hidx, herr, hev, hst, disable_onedrive_run_previous]

theorem isWrite_false_of_plain : ∀ e : Event, Event.isPlain e = true → e.isWrite = false := by
  intro e
  cases e <;> simp [Event.isPlain, Event.isWrite, Event.isMkdir]

theorem isMkdir_false_of_plain : ∀ e : Event, Event.isPlain e = true → e.isMkdir = false := by
  intro e
  cases e <;> simp [Event.isPlain, Event.isWrite, Event.isMkdir]

theorem writtenManifests_append (a b : List Event) :
    writtenManifests (a ++ b) = writtenManifests a ++ writtenManifests b := by
  simp [writtenManifests]

theorem svcEventsFlatten_plain (sw : ServiceWorld) (targets : List String) :
    ((targets.map (svcEvents sw)).flatten).all Event.isPlain = true := by
  rw [List.all_eq_true]
  intro e he
  rw [List.mem_flatten] at he
  obtain ⟨l, hl, hel⟩ := he
  rw [List.mem_map] at hl
  obtain ⟨s, _, rfl⟩ := hl
  exact List.all_eq_true.mp (svcEvents_plain sw s) e hel

/-- `writtenManifests` of a MaxPerformance apply call on Windows: exactly
the one manifest, holding the pre-mutation captures. -/
theorem apply_max_writtenManifests (sw : ServiceWorld) (pw : PowerWorld)
    (rk : RunKey) (tk : Taskkill) (backupRoot : String) :
    writtenManifests (apply_max_performance_profile "win32" sw pw rk tk backupRoot).2.2
      = [maxManifest sw pw rk] := by
  rw [apply_max_shape]
  simp only [writtenManifests_append]
  rw [writtenManifests_nil_of_plain _ (svcEventsFlatten_plain sw SERVICE_TARGETS),
    writtenManifests_nil_of_plain _ (powerOutcome_events_plain pw),
    writtenManifests_nil_of_plain _ (disable_onedrive_run_events_plain rk)]
  rfl

/-- `writtenManifests` of a Performance apply call on Windows. -/
theorem apply_performance_writtenManifests (rk : RunKey) (bk : BgKey)
    (tk : Taskkill) (backupRoot : String) :
    writtenManifests (apply_performance_profile "win32" rk bk tk backupRoot).2.2.2
      = [perfManifest rk bk] := by
  rw [apply_performance_shape]
  simp only [writtenManifests_append]
  rw [writtenManifests_nil_of_plain _ (disable_onedrive_run_events_plain rk),
    writtenManifests_nil_of_plain _ (disable_background_apps_events_plain bk)]
  rfl

theorem svcRecord_lookup_none (sw : ServiceWorld) (X : String)
    (h : svcRecord sw X = none) :
    ∀ targets : List String,
    (targets.filterMap (fun s => (svcRecord sw s).map (fun v => (s, v)))).lookup X
      = none := by
  intro targets
  induction targets with
  | nil => rfl
  | cons s targets ih =>
    simp only [List.filterMap_cons]
    cases hr : svcRecord sw s with
    | none =>
      simp only [Option.map_none']
      exact ih
    | some v =>
      simp only [Option.map_some']
      by_cases hxs : (X == s) = true
      · exfalso
        have hXs : X = s := by simpa using hxs
        rw [← hXs, h] at hr
        exact Option.noConfusion hr
      · have hxs' : (X == s) = false := Bool.eq_false_iff.mpr hxs
        simp only [List.lookup, hxs']
        exact ih

/-- C7.  For every MaxPerformance apply call in which the start-type or
running query of some target service X fails: X is not in the returned
`services_disabled` list, the error naming X is in the error list, X is
absent from the written manifest's service map, and every other target
service is still processed (its queries are issued, and it is disabled when
its own steps succeed). -/
theorem maxperf_service_query_failure
    (sw : ServiceWorld) (pw : PowerWorld) (rk : RunKey) (tk : Taskkill)
    (backupRoot : String) (X : String)
    (hX : X ∈ SERVICE_TARGETS)
    (hq : sw.startTypeOf X = none ∨ sw.runningOf X = none) :
    X ∉ (apply_max_performance_profile "win32" sw pw rk tk backupRoot).1.services_disabled
    ∧ ("Impossible de lire l'état du service " ++ X ++ ".")
        ∈ (apply_max_performance_profile "win32" sw pw rk tk backupRoot).1.errors
    ∧ (∀ m ∈ writtenManifests
          (apply_max_performance_profile "win32" sw pw rk tk backupRoot).2.2,
        ∀ pairs, jget m "services" = some (JValue.jobj pairs) →
          pairs.lookup X = none)
    ∧ (∀ Y ∈ SERVICE_TARGETS, Y ≠ X →
        Event.queryStart Y
          ∈ (apply_max_performance_profile "win32" sw pw rk tk backupRoot).2.2
        ∧ Event.queryRun Y
          ∈ (apply_max_performance_profile "win32" sw pw rk tk backupRoot).2.2
        ∧ (svcDisabledOk sw Y = true →
            Y ∈ (apply_max_performance_profile
              "win32" sw pw rk tk backupRoot).1.services_disabled)) := by
  have hqOk : svcQueriesOk sw X = false := by
    rcases hq with h | h <;> simp [svcQueriesOk, h]
  have hrec : svcRecord sw X = none := by
    unfold svcRecord
    rcases hq with h | h
    · rw [h]
    · rw [h]
      cases sw.startTypeOf X <;> rfl
  refine ⟨?_, ?_, ?_, ?_⟩
  · rw [apply_max_shape]
    simp only [List.mem_filter]
    rintro ⟨_, hok⟩
    rw [svcDisabledOk, hqOk] at hok
    simp at hok
  · rw [apply_max_shape]
    simp only [List.mem_append]
    left; left; left
    rw [List.mem_flatten]
    refine ⟨svcErrors sw X, List.mem_map_of_mem (svcErrors sw) hX, ?_⟩
    rw [svcErrors, hqOk]
    simp
  · intro m hm pairs hpairs
    rw [apply_max_writtenManifests] at hm
    simp only [List.mem_singleton] at hm
    subst hm
    have hsv : jget (maxManifest sw pw rk) "services"
        = some (JValue.jobj (maxServiceStates sw)) := rfl
    rw [hsv] at hpairs
    have hpe : pairs = maxServiceStates sw :=
      (JValue.jobj.inj (Option.some.inj hpairs)).symm
    rw [hpe]
    exact svcRecord_lookup_none sw X hrec SERVICE_TARGETS
  · intro Y hY _
    refine ⟨?_, ?_, ?_⟩
    · rw [apply_max_shape]
      simp only [List.mem_append]
      left; left; left; left; left; right
      rw [List.mem_flatten]
      refine ⟨svcEvents sw Y, List.mem_map_of_mem (svcEvents sw) hY, ?_⟩
      rw [svcEvents]
      simp
    · rw [apply_max_shape]
      simp only [List.mem_append]
      left; left; left; left; left; right
      rw [List.mem_flatten]
      refine ⟨svcEvents sw Y, List.mem_map_of_mem (svcEvents sw) hY, ?_⟩
      rw [svcEvents]
      simp
    · intro hok
      rw [apply_max_shape]
      simp only [List.mem_filter]
      exact ⟨hY, hok⟩

/-- C7 witness: a world in which both WSearch queries fail and the other
two services answer normally. -/
theorem maxperf_service_query_failure_witness :
    "WSearch" ∉ (apply_max_performance_profile "win32"
        ⟨fun s => if s = "WSearch" then none else some "AUTO_START",
         fun s => if s = "WSearch" then none else some true,
         fun _ => true, fun _ _ => true, fun _ => true⟩
        ⟨some "G0", some "HP", fun _ => true⟩
        ⟨true, "", some "od", true, "", true, "", true, ""⟩
        ⟨0, ""⟩ "B").1.services_disabled
    ∧ ("Impossible de lire l'état du service " ++ "WSearch" ++ ".")
        ∈ (apply_max_performance_profile "win32"
        ⟨fun s => if s = "WSearch" then none else some "AUTO_START",
         fun s => if s = "WSearch" then none else some true,
         fun _ => true, fun _ _ => true, fun _ => true⟩
        ⟨some "G0", some "HP", fun _ => true⟩
        ⟨true, "", some "od", true, "", true, "", true, ""⟩
        ⟨0, ""⟩ "B").1.errors := by
  have h := maxperf_service_query_failure
    ⟨fun s => if s = "WSearch" then none else some "AUTO_START",
     fun s => if s = "WSearch" then none else some true,
     fun _ => true, fun _ _ => true, fun _ => true⟩
    ⟨some "G0", some "HP", fun _ => true⟩
    ⟨true, "", some "od", true, "", true, "", true, ""⟩
    ⟨0, ""⟩ "B" "WSearch" (by decide) (Or.inl (by decide))
  exact ⟨h.1, h.2.1⟩

/-- C1.  For every Performance and MaxPerformance apply call on Windows,
the manifest is written exactly once (`writtenManifests` of the trace is a
one-element list) and the write is the very last event of the call — in
particular it happens after every mutation attempt of that call, whether
each attempt succeeded or failed.  The manifest content is `perfManifest` /
`maxManifest`, which by definition hold only the captures taken from the
pre-call state: the previous `OneDrive` registry value (`rk.value`, even
when its deletion subsequently fails), the previous background-apps flag
(`bk.value`), the queried pre-disable service start types and running
flags, and the pre-activation power scheme — never the newly written
state. -/
theorem manifest_write_once_pre_mutation
    (platform : String) (hp : platform = "win32")
    (rk : RunKey) (bk : BgKey) (tk : Taskkill) (backupRoot : String)
    (sw : ServiceWorld) (pw : PowerWorld) (rk' : RunKey) (tk' : Taskkill)
    (backupRoot' : String) :
    (∃ pre, (apply_performance_profile platform rk bk tk backupRoot).2.2.2
        = pre ++ [Event.writeManifest (perfManifest rk bk)]
      ∧ ∀ e ∈ pre, e.isWrite = false)
    ∧ writtenManifests (apply_performance_profile platform rk bk tk backupRoot).2.2.2
        = [perfManifest rk bk]
    ∧ (∃ pre, (apply_max_performance_profile platform sw pw rk' tk' backupRoot').2.2
        = pre ++ [Event.writeManifest (maxManifest sw pw rk')]
      ∧ ∀ e ∈ pre, e.isWrite = false)
    ∧ writtenManifests
        (apply_max_performance_profile platform sw pw rk' tk' backupRoot').2.2
        = [maxManifest sw pw rk'] := by
  subst hp
  refine ⟨?_, apply_performance_writtenManifests rk bk tk backupRoot, ?_,
    apply_max_writtenManifests sw pw rk' tk' backupRoot'⟩
  · refine ⟨[Event.mkdirSession] ++ (disable_onedrive_run rk).events
      ++ (disable_background_apps bk).events ++ [Event.taskkill], ?_, ?_⟩
    · rw [apply_performance_shape]
    · intro e he
      simp only [List.mem_append] at he
      rcases he with ((he | he) | he) | he
      · simp only [List.mem_singleton] at he
        subst he; rfl
      · exact isWrite_false_of_plain e
          (List.all_eq_true.mp (disable_onedrive_run_events_plain rk) e he)
      · exact isWrite_false_of_plain e
          (List.all_eq_true.mp (disable_background_apps_events_plain bk) e he)
      · simp only [List.mem_singleton] at he
        subst he; rfl
  · refine ⟨[Event.mkdirSession] ++ (SERVICE_TARGETS.map (svcEvents sw)).flatten
      ++ [Event.getActiveScheme, Event.listSchemes] ++ (powerOutcome pw).2.2
      ++ (disable_onedrive_run rk').events ++ [Event.taskkill], ?_, ?_⟩
    · rw [apply_max_shape]
    · intro e he
      simp only [List.mem_append] at he
      rcases he with ((((he | he) | he) | he) | he) | he
      · simp only [List.mem_singleton] at he
        subst he; rfl
      · exact isWrite_false_of_plain e
          (List.all_eq_true.mp (svcEventsFlatten_plain sw SERVICE_TARGETS) e he)
      · simp only [List.mem_cons, List.not_mem_nil, or_false] at he
        rcases he with rfl | rfl <;> rfl
      · exact isWrite_false_of_plain e
          (List.all_eq_true.mp (powerOutcome_events_plain pw) e he)
      · exact isWrite_false_of_plain e
          (List.all_eq_true.mp (disable_onedrive_run_events_plain rk') e he)
      · simp only [List.mem_singleton] at he
        subst he; rfl

/-- C1 witness: concrete worlds on Windows. -/
theorem manifest_write_once_pre_mutation_witness :
    writtenManifests (apply_performance_profile "win32"
        ⟨true, "", some "od", true, "", true, "", true, ""⟩
        ⟨true, "", some 0, true, "", true, ""⟩ ⟨0, ""⟩ "B").2.2.2
      = [perfManifest ⟨true, "", some "od", true, "", true, "", true, ""⟩
          ⟨true, "", some 0, true, "", true, ""⟩]
    ∧ writtenManifests (apply_max_performance_profile "win32"
        ⟨fun _ => some "AUTO_START", fun _ => some true,
         fun _ => true, fun _ _ => true, fun _ => true⟩
        ⟨some "G0", some "HP", fun _ => true⟩
        ⟨true, "", some "od", true, "", true, "", true, ""⟩ ⟨0, ""⟩ "C").2.2
      = [maxManifest
          ⟨fun _ => some "AUTO_START", fun _ => some true,
           fun _ => true, fun _ _ => true, fun _ => true⟩
          ⟨some "G0", some "HP", fun _ => true⟩
          ⟨true, "", some "od", true, "", true, "", true, ""⟩] := by
  have h := manifest_write_once_pre_mutation "win32" rfl
    ⟨true, "", some "od", true, "", true, "", true, ""⟩
    ⟨true, "", some 0, true, "", true, ""⟩ ⟨0, ""⟩ "B"
    ⟨fun _ => some "AUTO_START", fun _ => some true,
     fun _ => true, fun _ _ => true, fun _ => true⟩
    ⟨some "G0", some "HP", fun _ => true⟩
    ⟨true, "", some "od", true, "", true, "", true, ""⟩ ⟨0, ""⟩ "C"
  exact ⟨h.2.1, h.2.2.2⟩

/-! ## Lemmas: cleanup filesystem bookkeeping -/

theorem lookup_upsert {β : Type} (p q : String) (v : β) :
    ∀ d : List (String × β),
    (upsert p v d).lookup q = if q = p then some v else d.lookup q := by
  intro d
  induction d with
  | nil =>
    by_cases hq : q = p
    · simp [upsert, List.lookup, hq]
    · have : (q == p) = false := by simpa using hq
      simp [upsert, List.lookup, this, hq]
  | cons kv d ih =>
    obtain ⟨a, b⟩ := kv
    unfold upsert
    by_cases hap : a = p
    · subst hap
      by_cases hq : q = a
      · subst hq
        simp [List.lookup]
      · have hqa : (q == a) = false := by simpa using hq
        simp [List.lookup, hqa, hq]
    · have hap' : ¬ a = p := hap
      simp only [hap', if_false]
      by_cases hq : q = a
      · subst hq
        have : ¬ q = p := fun he => hap' he
        simp [List.lookup, this]
      · have hqa : (q == a) = false := by simpa using hq
        simp [List.lookup, hqa, ih]

theorem dirExists_setDir (fs : CleanupFS) (p q : String) (l : List String) :
    (fs.setDir p l).dirExists q = (if q = p then true else fs.dirExists q) := by
  unfold CleanupFS.setDir CleanupFS.dirExists CleanupFS.dirList
  simp only [lookup_upsert]
  by_cases hq : q = p <;> simp [hq]

theorem dirExists_setDir_mono (fs : CleanupFS) (p q : String) (l : List String)
    (h : fs.dirExists q = true) : (fs.setDir p l).dirExists q = true := by
  rw [dirExists_setDir]
  by_cases hq : q = p <;> simp [hq, h]

theorem dirExists_mkdirUnder_mono (fs : CleanupFS) (p c q : String)
    (h : fs.dirExists q = true) : (fs.mkdirUnder p c).dirExists q = true := by
  unfold CleanupFS.mkdirUnder
  by_cases hex : ((fs.setDir p
      (if c ∈ (fs.dirList p).getD [] then (fs.dirList p).getD []
       else (fs.dirList p).getD [] ++ [c])).dirExists (winJoin p c)) = true
  · simp only [hex, if_true]
    exact dirExists_setDir_mono fs p q _ h
  · simp only [hex, Bool.false_eq_true, if_false]
    exact dirExists_setDir_mono _ _ _ _ (dirExists_setDir_mono fs p q _ h)

theorem dirExists_mkdirUnder_self (fs : CleanupFS) (p c : String) :
    (fs.mkdirUnder p c).dirExists (winJoin p c) = true := by
  unfold CleanupFS.mkdirUnder
  by_cases hex : ((fs.setDir p
      (if c ∈ (fs.dirList p).getD [] then (fs.dirList p).getD []
       else (fs.dirList p).getD [] ++ [c])).dirExists (winJoin p c)) = true
  · simp only [hex, if_true]
  · simp only [hex, Bool.false_eq_true, if_false]
    rw [dirExists_setDir]
    simp

theorem dirExists_moveEntry_mono (fs : CleanupFS) (src dst name q : String)
    (h : fs.dirExists q = true) : (fs.moveEntry src dst name).dirExists q = true := by
  unfold CleanupFS.moveEntry
  exact dirExists_setDir_mono _ _ _ _ (dirExists_setDir_mono fs src q _ h)

theorem moveFold_dirExists_mono (w : CleanupWorld) (src dst : String) :
    ∀ (es : List String) (acc : MoveAcc) (q : String),
    acc.fs.dirExists q = true →
    ((es.foldl (moveEntriesStep w src dst) acc).fs).dirExists q = true := by
  intro es
  induction es with
  | nil => intro acc q h; exact h
  | cons e es ih =>
    intro acc q h
    simp only [List.foldl_cons]
    refine ih _ q ?_
    unfold moveEntriesStep
    by_cases hm : w.moveOk src e = true
    · simp only [hm, if_true]
      exact dirExists_moveEntry_mono _ _ _ _ _ h
    · simp only [hm, Bool.false_eq_true, if_false]
      exact h

theorem cleanupDirStep_dirExists_mono (w : CleanupWorld) (backupsRoot timestamp : String)
    (acc : CleanupAcc) (d q : String) (h : acc.fs.dirExists q = true) :
    ((cleanupDirStep w backupsRoot timestamp acc d).fs).dirExists q = true := by
  unfold cleanupDirStep
  by_cases h1 : acc.fs.dirExists d = true
  · by_cases h2 : (w.writable d && w.readable d) = true
    · simp only [h1, h2, not_true_eq_false, Bool.true_eq_false, if_false,
        Bool.false_eq_true, ite_false, ite_true]
      refine moveFold_dirExists_mono w _ _ _ _ q ?_
      exact dirExists_mkdirUnder_mono _ _ _ _ (dirExists_mkdirUnder_mono _ _ _ _ h)
    · simp [h1, h2, h]
  · simp [h1, h]

theorem cleanupFold_dirExists_mono (w : CleanupWorld) (backupsRoot timestamp : String) :
    ∀ (ds : List String) (acc : CleanupAcc) (q : String),
    acc.fs.dirExists q = true →
    ((ds.foldl (cleanupDirStep w backupsRoot timestamp) acc).fs).dirExists q = true := by
  intro ds
  induction ds with
  | nil => intro acc q h; exact h
  | cons d ds ih =>
    intro acc q h
    simp only [List.foldl_cons]
    exact ih _ q (cleanupDirStep_dirExists_mono w backupsRoot timestamp acc d q h)

theorem cleanupDirStep_creates_session (w : CleanupWorld)
    (backupsRoot timestamp : String) (acc : CleanupAcc) (d : String)
    (h1 : acc.fs.dirExists d = true) (h2 : (w.writable d && w.readable d) = true) :
    ((cleanupDirStep w backupsRoot timestamp acc d).fs).dirExists
      (winJoin backupsRoot timestamp) = true := by
  unfold cleanupDirStep
  simp only [h1, h2, not_true_eq_false, Bool.true_eq_false, if_false,
    Bool.false_eq_true, ite_false, ite_true]
  refine moveFold_dirExists_mono w _ _ _ _ _ ?_
  exact dirExists_mkdirUnder_mono _ _ _ _ (dirExists_mkdirUnder_self acc.fs backupsRoot timestamp)

theorem cleanupFold_creates_session (w : CleanupWorld)
    (backupsRoot timestamp : String) :
    ∀ (ds : List String) (acc : CleanupAcc),
    (∃ t ∈ ds, acc.fs.dirExists t = true ∧ (w.writable t && w.readable t) = true) →
    ((ds.foldl (cleanupDirStep w backupsRoot timestamp) acc).fs).dirExists
      (winJoin backupsRoot timestamp) = true := by
  intro ds
  induction ds with
  | nil => rintro acc ⟨t, ht, _⟩; exact absurd ht (List.not_mem_nil t)
  | cons d ds ih =>
    rintro acc ⟨t, ht, hex, hacc⟩
    simp only [List.foldl_cons]
    rcases List.mem_cons.mp ht with rfl | hmem
    · exact cleanupFold_dirExists_mono w backupsRoot timestamp ds _ _
        (cleanupDirStep_creates_session w backupsRoot timestamp acc t hex hacc)
    · exact ih _ ⟨t, hmem,
        cleanupDirStep_dirExists_mono w backupsRoot timestamp acc d t hex, hacc⟩

theorem cleanupFold_skip_all (w : CleanupWorld) (backupsRoot timestamp : String) :
    ∀ (ds : List String) (acc : CleanupAcc),
    (∀ t ∈ ds, ¬ (acc.fs.dirExists t = true ∧ (w.writable t && w.readable t) = true)) →
    ((ds.foldl (cleanupDirStep w backupsRoot timestamp) acc).fs = acc.fs
     ∧ (ds.foldl (cleanupDirStep w backupsRoot timestamp) acc).moved = acc.moved
     ∧ (ds.foldl (cleanupDirStep w backupsRoot timestamp) acc).failed = acc.failed
     ∧ (ds.foldl (cleanupDirStep w backupsRoot timestamp) acc).scanned = acc.scanned
     ∧ (ds.foldl (cleanupDirStep w backupsRoot timestamp) acc).mapping = acc.mapping) := by
  intro ds
  induction ds with
  | nil => intro acc _; exact ⟨rfl, rfl, rfl, rfl, rfl⟩
  | cons d ds ih =>
    intro acc h
    simp only [List.foldl_cons]
    have hd := h d (List.mem_cons_self d ds)
    have hstep : (cleanupDirStep w backupsRoot timestamp acc d).fs = acc.fs
        ∧ (cleanupDirStep w backupsRoot timestamp acc d).moved = acc.moved
        ∧ (cleanupDirStep w backupsRoot timestamp acc d).failed = acc.failed
        ∧ (cleanupDirStep w backupsRoot timestamp acc d).scanned = acc.scanned
        ∧ (cleanupDirStep w backupsRoot timestamp acc d).mapping = acc.mapping := by
      unfold cleanupDirStep
      by_cases h1 : acc.fs.dirExists d = true
      · have h2 : ¬ (w.writable d && w.readable d) = true := fun hc => hd ⟨h1, hc⟩
        simp [h1, h2]
      · simp [h1]
    have := ih (cleanupDirStep w backupsRoot timestamp acc d)
      (by
        intro t ht
        rw [hstep.1]
        exact h t (List.mem_cons_of_mem d ht))
    rw [this.1, this.2.1, this.2.2.1, this.2.2.2.1, this.2.2.2.2,
      hstep.1, hstep.2.1, hstep.2.2.1, hstep.2.2.2.1, hstep.2.2.2.2]
    exact ⟨rfl, rfl, rfl, rfl, rfl⟩

theorem dirExists_moveEntry (fs : CleanupFS) (src dst name p : String) :
    (fs.moveEntry src dst name).dirExists p = true →
    fs.dirExists p = true ∨ p = src ∨ p = dst := by
  unfold CleanupFS.moveEntry
  rw [dirExists_setDir, dirExists_setDir]
  by_cases hd : p = dst
  · exact fun _ => Or.inr (Or.inr hd)
  · by_cases hs : p = src
    · exact fun _ => Or.inr (Or.inl hs)
    · simp only [hd, hs, if_false]
      exact fun h => Or.inl h

theorem moveFold_new_keys (w : CleanupWorld) (src dst : String) :
    ∀ (es : List String) (acc : MoveAcc) (p : String),
    ((es.foldl (moveEntriesStep w src dst) acc).fs).dirExists p = true →
    acc.fs.dirExists p = true ∨ p = src ∨ p = dst := by
  intro es
  induction es with
  | nil => intro acc p h; exact Or.inl h
  | cons e es ih =>
    intro acc p h
    simp only [List.foldl_cons] at h
    rcases ih _ p h with hstep | hs | hd
    · unfold moveEntriesStep at hstep
      by_cases hm : w.moveOk src e = true
      · simp only [hm, if_true] at hstep
        exact dirExists_moveEntry _ _ _ _ _ hstep
      · simp only [hm, Bool.false_eq_true, if_false] at hstep
        exact Or.inl hstep
    · exact Or.inr (Or.inl hs)
    · exact Or.inr (Or.inr hd)

theorem restoreDirStep_new_keys (w : CleanupWorld) (latestBackup : String)
    (acc : RestoreAcc) (kv : String × String) (p : String)
    (h : ((restoreDirStep w latestBackup acc kv).fs).dirExists p = true) :
    acc.fs.dirExists p = true ∨ p = kv.2 := by
  unfold restoreDirStep at h
  by_cases h1 : acc.fs.dirExists (winJoin latestBackup kv.1) = true
  · by_cases h2 : (¬ acc.fs.dirExists kv.2 = true ∧ ¬ w.mkdirOk kv.2 = true)
    · simp only [h1, not_true_eq_false, Bool.true_eq_false, if_false] at h
      rw [if_pos h2] at h
      exact Or.inl h
    · simp only [h1, not_true_eq_false, Bool.true_eq_false, if_false] at h
      rw [if_neg h2] at h
      simp only at h
      rcases moveFold_new_keys w _ _ _ _ p h with hbase | hs | hd
      · by_cases hex : acc.fs.dirExists kv.2 = true
        · rw [if_pos hex] at hbase
          exact Or.inl hbase
        · rw [if_neg hex] at hbase
          rw [dirExists_setDir] at hbase
          by_cases hp : p = kv.2
          · exact Or.inr hp
          · rw [if_neg hp] at hbase
            exact Or.inl hbase
      · subst hs
        exact Or.inl h1
      · exact Or.inr hd
  · simp only [h1] at h
    simp at h
    exact Or.inl h

theorem restoreFold_new_keys (w : CleanupWorld) (latestBackup : String) :
    ∀ (items : List (String × String)) (acc : RestoreAcc) (p : String),
    ((items.foldl (restoreDirStep w latestBackup) acc).fs).dirExists p = true →
    acc.fs.dirExists p = true ∨ ∃ kv ∈ items, p = kv.2 := by
  intro items
  induction items with
  | nil => intro acc p h; exact Or.inl h
  | cons kv items ih =>
    intro acc p h
    simp only [List.foldl_cons] at h
    rcases ih _ p h with hstep | ⟨kv', hkv', hp⟩
    · rcases restoreDirStep_new_keys w latestBackup acc kv p hstep with hbase | hp
      · exact Or.inl hbase
      · exact Or.inr ⟨kv, List.mem_cons_self kv items, hp⟩
    · exact Or.inr ⟨kv', List.mem_cons_of_mem kv hkv', hp⟩

/-! Restore traces of the registry-based engines contain only plain adapter
calls: no manifest write and no directory creation. -/

theorem restoreServiceStep_events_plain (sw : ServiceWorld)
    (acc : List String × List Event) (kv : String × JValue)
    (h : acc.2.all Event.isPlain = true) :
    ((restoreServiceStep sw acc kv).2).all Event.isPlain = true := by
  unfold restoreServiceStep
  cases hkv : kv.2 with
  | jobj state =>
    simp only
    split <;> (try split) <;> (try split) <;>
      simp [h, List.all_append, Event.isPlain, Event.isWrite, Event.isMkdir]
  | jnull => exact h
  | jbool b => exact h
  | jint n => exact h
  | jstr s => exact h

theorem restoreSvcFold_events_plain (sw : ServiceWorld) :
    ∀ (items : List (String × JValue)) (acc : List String × List Event),
    acc.2.all Event.isPlain = true →
    ((items.foldl (restoreServiceStep sw) acc).2).all Event.isPlain = true := by
  intro items
  induction items with
  | nil => intro acc h; exact h
  | cons kv items ih =>
    intro acc h
    simp only [List.foldl_cons]
    exact ih _ (restoreServiceStep_events_plain sw acc kv h)

theorem restore_latest_performance_trace_plain (platform : String)
    (st : BackupStore) (rk : RunKey) (bk : BgKey) :
    ((restore_latest_performance platform st rk bk).2.2.2).all Event.isPlain = true := by
  unfold restore_latest_performance
  by_cases hw : platform = "win32"
  · simp only [ensure_windows_performance, hw, ne_eq, not_true_eq_false,
      Bool.false_eq_true, if_false, decide_not, not_false_eq_true, if_true]
    by_cases hroot : st.rootExists = true
    · simp only [hroot, not_true_eq_false, if_false]
      cases hls : latestSession true st.entries with
      | none => simp
      | some latestBackup =>
        simp only
        by_cases hempty : (st.manifestOf latestBackup).isEmpty = true
        · simp [hempty]
        · simp only [hempty, Bool.false_eq_true, if_false, List.all_append,
            Bool.and_eq_true]
          exact ⟨restore_onedrive_run_events_plain _ rk,
            restore_background_apps_events_plain _ bk⟩
    · simp [hroot]
  · simp [ensure_windows_performance, hw]

theorem restore_latest_max_trace_plain (platform : String) (st : BackupStore)
    (sw : ServiceWorld) (pw : PowerWorld) (rk : RunKey) :
    ((restore_latest_max_performance platform st sw pw rk).2.2).all Event.isPlain
      = true := by
  unfold restore_latest_max_performance
  by_cases hw : platform = "win32"
  · simp only [ensure_windows_max, hw, ne_eq, not_true_eq_false,
      Bool.false_eq_true, if_false, decide_not, not_false_eq_true, if_true]
    by_cases hroot : st.rootExists = true
    · simp only [hroot, not_true_eq_false, if_false]
      cases hls : latestSession true st.entries with
      | none => simp
      | some latestBackup =>
        simp only
        by_cases hempty : (st.manifestOf latestBackup).isEmpty = true
        · simp [hempty]
        · simp only [hempty, Bool.false_eq_true, if_false, List.all_append,
            Bool.and_eq_true]
          refine ⟨⟨?_, ?_⟩, restore_onedrive_run_events_plain _ rk⟩
          · cases hsv : getField (st.manifestOf latestBackup) "services" with
            | jobj items => exact restoreSvcFold_events_plain sw items ([], []) rfl
            | jnull => rfl
            | jbool b => rfl
            | jint n => rfl
            | jstr s => rfl
          · cases hps : getField (st.manifestOf latestBackup) "power_scheme" with
            | jstr g =>
              by_cases hset : pw.setOk g = true <;>
                simp [hset, Event.isPlain, Event.isWrite, Event.isMkdir]
            | jnull => rfl
            | jbool b => rfl
            | jint n => rfl
            | jobj o => rfl
    · simp [hroot]
  · simp [ensure_windows_max, hw]

/-- C4 counterexample.  The claim says a session directory is created by an
apply call only if at least one mutation occurred during that call.  For a
Cleanup apply over a single, existing, accessible but *empty* temp
directory, nothing is scanned, moved or failed — not even a mutation attempt
takes place — yet the session directory `B\ts` has been created on disk
(`safe_cleanup` runs `destination_root.mkdir(parents=True)` before looking
at the directory's entries).  The result reports no backup directory while
the directory exists. -/
theorem session_creation_counterexample :
    (safe_cleanup
        ⟨fun _ => true, fun _ => true, fun _ _ => true, fun _ _ => "",
         fun _ => true, fun _ => ""⟩
        ⟨some "T", none, none⟩ "B" "ts" ⟨[("T", [])], []⟩).1.scanned = 0
    ∧ (safe_cleanup
        ⟨fun _ => true, fun _ => true, fun _ _ => true, fun _ _ => "",
         fun _ => true, fun _ => ""⟩
        ⟨some "T", none, none⟩ "B" "ts" ⟨[("T", [])], []⟩).1.moved = 0
    ∧ (safe_cleanup
        ⟨fun _ => true, fun _ => true, fun _ _ => true, fun _ _ => "",
         fun _ => true, fun _ => ""⟩
        ⟨some "T", none, none⟩ "B" "ts" ⟨[("T", [])], []⟩).1.failed = 0
    ∧ (safe_cleanup
        ⟨fun _ => true, fun _ => true, fun _ _ => true, fun _ _ => "",
         fun _ => true, fun _ => ""⟩
        ⟨some "T", none, none⟩ "B" "ts" ⟨[("T", [])], []⟩).1.backup_dir = none
    ∧ (safe_cleanup
        ⟨fun _ => true, fun _ => true, fun _ _ => true, fun _ _ => "",
         fun _ => true, fun _ => ""⟩
        ⟨some "T", none, none⟩ "B" "ts" ⟨[("T", [])], []⟩).2.dirExists
        (winJoin "B" "ts") = true := by
  decide

/-- The manifest the cleanup restore would act on: the latest session's
mapping (empty when there is nothing to restore). -/
def cleanupLatestManifest (fs : CleanupFS) (backupsRoot : String) :
    List (String × String) :=
  if fs.dirExists backupsRoot then
    match latestSession true (listingEntries fs backupsRoot) with
    | some name => readCleanupManifest fs (winJoin backupsRoot name)
    | none => []
  else []

theorem safe_cleanup_fs_dirExists (w : CleanupWorld) (env : CleanupEnv)
    (backupsRoot timestamp : String) (fs : CleanupFS) (q : String) :
    (safe_cleanup w env backupsRoot timestamp fs).2.dirExists q
      = (((collect_temp_dirs env).foldl (cleanupDirStep w backupsRoot timestamp)
          ⟨fs, [], 0, 0, 0, 0, []⟩).fs).dirExists q := by
  unfold safe_cleanup
  by_cases hz : ((collect_temp_dirs env).foldl
        (cleanupDirStep w backupsRoot timestamp) ⟨fs, [], 0, 0, 0, 0, []⟩).moved = 0
      ∧ ((collect_temp_dirs env).foldl
        (cleanupDirStep w backupsRoot timestamp) ⟨fs, [], 0, 0, 0, 0, []⟩).failed = 0
  · simp [hz]
  · simp [hz, CleanupFS.dirExists, CleanupFS.dirList]

/-- C4 (amended).  Session-directory creation, as the code implements it:
a Cleanup apply creates the session directory exactly when it processes at
least one existing, accessible target (even one with no entries, i.e. with
zero mutations); Performance and MaxPerformance apply calls always create
the session directory once the platform guard passes, regardless of whether
any mutation occurred; and no restore call creates a session directory —
the Performance/MaxPerformance restores perform no directory creation at
all, and the Cleanup restore creates directories only at the destination
paths recorded in the manifest (the original temp paths), never under a
backup root. -/
theorem session_directory_creation
    (w : CleanupWorld) (env : CleanupEnv) (backupsRoot timestamp : String)
    (fs : CleanupFS) (platform : String) (hp : platform = "win32")
    (rk : RunKey) (bk : BgKey) (tk : Taskkill) (broot : String)
    (sw : ServiceWorld) (pw : PowerWorld) (rk' : RunKey) (tk' : Taskkill)
    (broot' : String) (st st' : BackupStore) (w' : CleanupWorld) (fs' : CleanupFS)
    (backupsRoot' : String) :
    ((∃ t ∈ collect_temp_dirs env,
        fs.dirExists t = true ∧ (w.writable t && w.readable t) = true) →
      (safe_cleanup w env backupsRoot timestamp fs).2.dirExists
        (winJoin backupsRoot timestamp) = true)
    ∧ ((∀ t ∈ collect_temp_dirs env,
        ¬ (fs.dirExists t = true ∧ (w.writable t && w.readable t) = true)) →
      (safe_cleanup w env backupsRoot timestamp fs).2 = fs)
    ∧ Event.mkdirSession ∈ (apply_performance_profile platform rk bk tk broot).2.2.2
    ∧ Event.mkdirSession
        ∈ (apply_max_performance_profile platform sw pw rk' tk' broot').2.2
    ∧ (∀ e ∈ (restore_latest_performance platform st rk bk).2.2.2,
        e.isMkdir = false)
    ∧ (∀ e ∈ (restore_latest_max_performance platform st' sw pw rk').2.2,
        e.isMkdir = false)
    ∧ (∀ p, (restore_latest_backup w' backupsRoot' fs').2.dirExists p = true →
        fs'.dirExists p = true
        ∨ p ∈ (cleanupLatestManifest fs' backupsRoot').map Prod.snd) := by
  subst hp
  refine ⟨?_, ?_, ?_, ?_, ?_, ?_, ?_⟩
  · intro hx
    rw [safe_cleanup_fs_dirExists]
    exact cleanupFold_creates_session w backupsRoot timestamp
      (collect_temp_dirs env) ⟨fs, [], 0, 0, 0, 0, []⟩ hx
  · intro hnone
    have hs := cleanupFold_skip_all w backupsRoot timestamp
      (collect_temp_dirs env) ⟨fs, [], 0, 0, 0, 0, []⟩ hnone
    unfold safe_cleanup
    rw [if_pos ⟨hs.2.1, hs.2.2.1⟩]
    exact hs.1
  · rw [apply_performance_shape]
    simp
  · rw [apply_max_shape]
    simp
  · intro e he
    exact isMkdir_false_of_plain e
      (List.all_eq_true.mp (restore_latest_performance_trace_plain "win32" st rk bk) e he)
  · intro e he
    exact isMkdir_false_of_plain e
      (List.all_eq_true.mp
        (restore_latest_max_trace_plain "win32" st' sw pw rk') e he)
  · intro p hp'
    unfold restore_latest_backup at hp'
    by_cases hroot : fs'.dirExists backupsRoot' = true
    · simp only [hroot, not_true_eq_false, if_false] at hp'
      unfold cleanupLatestManifest
      rw [if_pos hroot]
      cases hls : latestSession true (listingEntries fs' backupsRoot') with
      | none =>
        rw [hls] at hp'
        simp only at hp'
        exact Or.inl hp'
      | some name =>
        rw [hls] at hp'
        simp only at hp'
        by_cases hempty :
            (readCleanupManifest fs' (winJoin backupsRoot' name)).isEmpty = true
        · rw [if_pos hempty] at hp'
          simp only at hp'
          exact Or.inl hp'
        · rw [if_neg hempty] at hp'
          simp only at hp'
          rcases restoreFold_new_keys w' (winJoin backupsRoot' name)
            (readCleanupManifest fs' (winJoin backupsRoot' name))
            ⟨fs', 0, 0, 0, 0, []⟩ p hp' with hbase | ⟨kv, hkv, hpkv⟩
          · exact Or.inl hbase
          · right
            rw [List.mem_map]
            exact ⟨kv, hkv, hpkv.symm⟩
    · simp only [hroot] at hp'
      simp at hp'
      exact Or.inl hp'

/-- C4 witness: the amended theorem at concrete inputs — a processed empty
target creates the Cleanup session directory, and a Windows Performance
apply records the session-directory creation event. -/
theorem session_directory_creation_witness :
    (safe_cleanup
        ⟨fun _ => true, fun _ => true, fun _ _ => true, fun _ _ => "",
         fun _ => true, fun _ => ""⟩
        ⟨some "T", none, none⟩ "B" "ts" ⟨[("T", [])], []⟩).2.dirExists
        (winJoin "B" "ts") = true
    ∧ Event.mkdirSession ∈ (apply_performance_profile "win32"
        ⟨true, "", some "od", true, "", true, "", true, ""⟩
        ⟨true, "", some 0, true, "", true, ""⟩ ⟨0, ""⟩ "B2").2.2.2 := by
  have h := session_directory_creation
    ⟨fun _ => true, fun _ => true, fun _ _ => true, fun _ _ => "",
     fun _ => true, fun _ => ""⟩
    ⟨some "T", none, none⟩ "B" "ts" ⟨[("T", [])], []⟩ "win32" rfl
    ⟨true, "", some "od", true, "", true, "", true, ""⟩
    ⟨true, "", some 0, true, "", true, ""⟩ ⟨0, ""⟩ "B2"
    ⟨fun _ => some "AUTO_START", fun _ => some true,
     fun _ => true, fun _ _ => true, fun _ => true⟩
    ⟨some "G0", some "HP", fun _ => true⟩
    ⟨true, "", some "od", true, "", true, "", true, ""⟩ ⟨0, ""⟩ "B3"
    ⟨false, [], fun _ => []⟩ ⟨false, [], fun _ => []⟩
    ⟨fun _ => true, fun _ => true, fun _ _ => true, fun _ _ => "",
     fun _ => true, fun _ => ""⟩ ⟨[], []⟩ "B4"
  exact ⟨h.1 ⟨"T", by decide, by decide, by decide⟩, h.2.2.1⟩

/-- C8 counterexample.  The claim says a manifest field of unexpected type —
"for example … a non-integer background-apps value" — is treated as absent.
But the parser is Python's `isinstance(value, int)`, and a JSON boolean *is*
an `int` in Python (`True` is the integer 1).  With
`"background_previous": true` in the manifest the restore does not treat the
field as absent: it parses it as the integer 1 and writes
`GlobalUserDisabled = 1` back, whereas the absent treatment would delete the
value.  The two final registry states differ, so the field is not treated
as absent. -/
theorem bool_background_not_absent_counterexample :
    parseIntField [("background_previous", JValue.jbool true)] "background_previous"
      = some 1
    ∧ (restore_background_apps
        (parseIntField [("background_previous", JValue.jbool true)]
          "background_previous")
        ⟨true, "", some 5, true, "", true, ""⟩).key.value = some 1
    ∧ (restore_background_apps none
        ⟨true, "", some 5, true, "", true, ""⟩).key.value = none := by
  refine ⟨by decide, by decide, by decide⟩

/-- C8 (amended).  For every Performance and MaxPerformance restore call,
a manifest field of unexpected type is treated as absent — a non-string
startup-registration value or power scheme parses to `none`, a service
record that is not an object is skipped entirely, and a service record
whose `start_type` is not a string and whose `was_running` is not `true`
contributes nothing — with one exception: a *boolean* background-apps
value passes Python's `isinstance(v, int)` test (booleans are integers in
Python) and is restored as the integer 0/1 rather than treated as absent.
In every case the restore still proceeds over the remaining fields and
returns a normal result; no unexpected type makes the whole restore fail
(every branch of the embedding returns a result). -/
theorem restore_unexpected_types
    (m state : List (String × JValue)) (k kvName : String) (sw : ServiceWorld)
    (acc : List String × List Event) (kv : String × JValue)
    (st : BackupStore) (rk : RunKey) (bk : BgKey) (pw : PowerWorld)
    (latestBackup : String)
    (h1 : pyIsInstStr (getField m k) = false)
    (h2 : pyIsInstInt (getField m k) = false)
    (h3 : pyIsInstDict kv.2 = false)
    (h5 : pyIsInstStr (getField state "start_type") = false)
    (h6 : getField state "was_running" ≠ JValue.jbool true)
    (h7 : st.rootExists = true)
    (h8 : latestSession true st.entries = some latestBackup)
    (h9 : (st.manifestOf latestBackup).isEmpty = false) :
    parseStrField m k = none
    ∧ parseIntField m k = none
    ∧ restoreServiceStep sw acc kv = acc
    ∧ restoreServiceStep sw acc (kvName, JValue.jobj state) = acc
    ∧ (∃ errs rk' bk' tr, restore_latest_performance "win32" st rk bk
        = (⟨false, false, false, some latestBackup, errs⟩, rk', bk', tr))
    ∧ (∃ errs rk' tr, restore_latest_max_performance "win32" st sw pw rk
        = (⟨[], false, false, false, false, some latestBackup, errs⟩, rk', tr)) := by
  refine ⟨?_, ?_, ?_, ?_, ?_, ?_⟩
  · unfold parseStrField
    cases hg : getField m k <;> simp_all [pyIsInstStr]
  · unfold parseIntField
    cases hg : getField m k <;> simp_all [pyIsInstInt]
  · unfold restoreServiceStep
    cases hg : kv.2 <;> simp_all [pyIsInstDict]
  · unfold restoreServiceStep
    simp only
    cases hst : getField state "start_type" <;>
      cases hwr : getField state "was_running" <;>
        simp_all [pyIsInstStr]
  · unfold restore_latest_performance
    simp only [ensure_windows_performance, ne_eq, not_true_eq_false, if_false,
      decide_not, Bool.false_eq_true, not_false_eq_true, if_true]
    rw [if_neg (by rw [h7]; intro hc; exact absurd rfl hc), h8]
    simp only [h9, Bool.false_eq_true, if_false]
    exact ⟨_, _, _, _, rfl⟩
  · unfold restore_latest_max_performance
    simp only [ensure_windows_max, ne_eq, not_true_eq_false, if_false,
      decide_not, Bool.false_eq_true, not_false_eq_true, if_true]
    rw [if_neg (by rw [h7]; intro hc; exact absurd rfl hc), h8]
    simp only [h9, Bool.false_eq_true, if_false]
    exact ⟨_, _, _, rfl⟩

/-- C8 witness: concrete ill-typed manifest fields (an object where a
string or integer is expected, an integer service record, an integer
`start_type` with an integer `was_running`). -/
theorem restore_unexpected_types_witness :
    parseStrField [("onedrive_run_value", JValue.jobj [])] "onedrive_run_value" = none
    ∧ parseIntField [("onedrive_run_value", JValue.jobj [])] "onedrive_run_value"
        = none
    ∧ (∃ errs rk' bk' tr, restore_latest_performance "win32"
        ⟨true, [⟨"S", true⟩], fun _ => [("onedrive_run_value", JValue.jobj [])]⟩
        ⟨true, "", some "od", true, "", true, "", true, ""⟩
        ⟨true, "", some 0, true, "", true, ""⟩
        = (⟨false, false, false, some "S", errs⟩, rk', bk', tr)) := by
  have h := restore_unexpected_types
    [("onedrive_run_value", JValue.jobj [])]
    [("start_type", JValue.jint 9), ("was_running", JValue.jint 1)]
    "onedrive_run_value" "X"
    ⟨fun _ => some "AUTO_START", fun _ => some true,
     fun _ => true, fun _ _ => true, fun _ => true⟩
    ([], []) ("Y", JValue.jint 0)
    ⟨true, [⟨"S", true⟩], fun _ => [("onedrive_run_value", JValue.jobj [])]⟩
    ⟨true, "", some "od", true, "", true, "", true, ""⟩
    ⟨true, "", some 0, true, "", true, ""⟩
    ⟨some "G0", some "HP", fun _ => true⟩ "S"
    rfl rfl rfl rfl
    (by intro hc; exact JValue.noConfusion hc) rfl (by decide) rfl
  exact ⟨h.1, h.2.1, h.2.2.2.2.1⟩

/-! ## Lemmas towards the Cleanup round trip (C2) -/

theorem winJoin_length (a b : String) :
    (winJoin a b).length = a.length + 1 + b.length := by
  unfold winJoin
  simp only [String.length_append]
  have h1 : ("\\" : String).length = 1 := by decide
  rw [h1]

theorem winJoin_ne_left (a b : String) : winJoin a b ≠ a := by
  intro h
  have := congrArg String.length h
  rw [winJoin_length] at this
  omega

theorem winJoin_ne_base (a b c : String) : winJoin (winJoin a b) c ≠ a := by
  intro h
  have := congrArg String.length h
  rw [winJoin_length, winJoin_length] at this
  omega

theorem winJoin_right_inj {a b c : String} (h : winJoin a b = winJoin a c) :
    b = c := by
  unfold winJoin at h
  have h2 : a.data ++ '\\' :: b.data = a.data ++ '\\' :: c.data := by
    have := congrArg String.data h
    simpa using this
  have h3 : b.data = c.data := by
    have := List.append_cancel_left h2
    simpa using this
  exact String.ext h3

/-- If the maximal name is present, `latestSession` picks it. -/
theorem latestSession_eq_max (entries : List DirEntry) (ts : String)
    (hmem : ts ∈ (entries.filter (fun e => e.isDir)).map (fun e => e.name))
    (hmax : ∀ n ∈ (entries.filter (fun e => e.isDir)).map (fun e => e.name),
      n = ts ∨ pyStrLt n ts = true) :
    latestSession true entries = some ts := by
  cases h : latestSession true entries with
  | none =>
    unfold latestSession at h
    simp only [if_true] at h
    rw [List.head?_eq_none_iff] at h
    have hperm := sortedDescending_perm
      ((entries.filter (fun e => e.isDir)).map (fun e => e.name))
    rw [h] at hperm
    rw [← hperm.mem_iff] at hmem
    exact absurd hmem (List.not_mem_nil ts)
  | some m =>
    have hm := sortedDescending_head_max (by simpa [latestSession] using h)
    rcases hmax m hm.1 with rfl | hlt
    · rfl
    · rw [hm.2 ts hmem] at hlt
      exact absurd hlt (by simp)

theorem dirList_setDir (fs : CleanupFS) (p q : String) (l : List String) :
    (fs.setDir p l).dirList q = if q = p then some l else fs.dirList q := by
  unfold CleanupFS.setDir CleanupFS.dirList
  simp only [lookup_upsert]

theorem manifests_setDir (fs : CleanupFS) (p : String) (l : List String) :
    (fs.setDir p l).manifests = fs.manifests := rfl

/-- Full characterization of the per-entry move loop: the moved entries
(those whose `shutil.move` succeeds) migrate from the source listing to the
end of the destination listing, every other directory and the manifest
store are untouched, and the counters advance by the obvious amounts. -/
theorem moveFold_spec (w : CleanupWorld) (src dst : String) (hne : src ≠ dst) :
    ∀ (es : List String) (acc : MoveAcc) (l d : List String),
    acc.fs.dirList src = some l →
    acc.fs.dirList dst = some d →
    es.Nodup → l.Nodup →
    (∀ e ∈ es, e ∉ d) →
    ((es.foldl (moveEntriesStep w src dst) acc).fs.dirList src
        = some (l.filter (fun n => !(es.contains n && w.moveOk src n)))
    ∧ (es.foldl (moveEntriesStep w src dst) acc).fs.dirList dst
        = some (d ++ es.filter (fun e => w.moveOk src e))
    ∧ (∀ p, p ≠ src → p ≠ dst →
        (es.foldl (moveEntriesStep w src dst) acc).fs.dirList p = acc.fs.dirList p)
    ∧ (es.foldl (moveEntriesStep w src dst) acc).fs.manifests = acc.fs.manifests
    ∧ (es.foldl (moveEntriesStep w src dst) acc).moved
        = acc.moved + (es.filter (fun e => w.moveOk src e)).length
    ∧ (es.foldl (moveEntriesStep w src dst) acc).failed
        = acc.failed + (es.filter (fun e => !(w.moveOk src e))).length
    ∧ (es.foldl (moveEntriesStep w src dst) acc).scanned
        = acc.scanned + es.length) := by
  intro es
  induction es with
  | nil =>
    intro acc l d hsrc hdst _ hlnd _
    refine ⟨?_, ?_, fun p _ _ => rfl, rfl, by simp, by simp, by simp⟩
    · show acc.fs.dirList src = _
      rw [hsrc]
      congr 1
      exact (List.filter_eq_self.mpr (by intro a _; simp)).symm
    · show acc.fs.dirList dst = _
      rw [hdst]
      simp
  | cons e es ih =>
    intro acc l d hsrc hdst hesnd hlnd hdisj
    simp only [List.foldl_cons]
    have hes_nd := (List.nodup_cons.mp hesnd).2
    have he_notmem := (List.nodup_cons.mp hesnd).1
    by_cases hmv : w.moveOk src e = true
    · -- successful move of e
      have hstep : moveEntriesStep w src dst acc e =
          { acc with
            fs := acc.fs.moveEntry src dst e
            scanned := acc.scanned + 1
            moved := acc.moved + 1 } := by
        unfold moveEntriesStep
        simp [hmv]
      have hsrc' : (acc.fs.moveEntry src dst e).dirList src = some (l.erase e) := by
        unfold CleanupFS.moveEntry
        rw [dirList_setDir]
        rw [if_neg hne]
        rw [dirList_setDir, if_pos rfl, hsrc]
        rfl
      have hdst' : (acc.fs.moveEntry src dst e).dirList dst = some (d ++ [e]) := by
        unfold CleanupFS.moveEntry
        rw [dirList_setDir, if_pos rfl]
        have hd : (acc.fs.setDir src (((acc.fs.dirList src).getD []).erase e)).dirList dst
            = some d := by
          rw [dirList_setDir, if_neg (Ne.symm hne), hdst]
        rw [hd]
        simp only [Option.getD_some]
        rw [if_neg (hdisj e (List.mem_cons_self e es))]
      have hrec := ih { acc with
          fs := acc.fs.moveEntry src dst e
          scanned := acc.scanned + 1
          moved := acc.moved + 1 }
        (l.erase e) (d ++ [e]) hsrc' hdst' hes_nd (hlnd.erase e)
        (by
          intro e' he'
          simp only [List.mem_append, List.mem_singleton]
          rintro (hd' | rfl)
          · exact hdisj e' (List.mem_cons_of_mem e he') hd'
          · exact he_notmem he')
      rw [hstep] at *
      refine ⟨?_, ?_, ?_, ?_, ?_, ?_, ?_⟩
      · rw [hrec.1]
        congr 1
        rw [hlnd.erase_eq_filter e, List.filter_filter]
        apply List.filter_congr
        intro n _
        by_cases hne' : n = e
        · subst hne'
          simp [hmv]
        · have h1 : (n == e) = false := by simpa using hne'
          have h2 : (n != e) = true := by simpa using hne'
          simp [hne']
      · rw [hrec.2.1]
        simp [hmv]
      · intro p hp1 hp2
        rw [hrec.2.2.1 p hp1 hp2]
        unfold CleanupFS.moveEntry
        rw [dirList_setDir, if_neg hp2, dirList_setDir, if_neg hp1]
      · rw [hrec.2.2.2.1]
        rfl
      · rw [hrec.2.2.2.2.1]
        simp only [List.filter_cons, hmv, if_true]
        simp
        omega
      · rw [hrec.2.2.2.2.2.1]
        simp only [List.filter_cons, hmv]
        simp
      · rw [hrec.2.2.2.2.2.2]
        simp
        omega
    · -- failed move of e
      have hmv' : w.moveOk src e = false := Bool.eq_false_iff.mpr hmv
      have hstep : moveEntriesStep w src dst acc e =
          { acc with
            scanned := acc.scanned + 1
            failed := acc.failed + 1
            errors := acc.errors ++ [winJoin src e ++ ": " ++ w.moveErr src e] } := by
        unfold moveEntriesStep
        simp [hmv']
      have hrec := ih { acc with
          scanned := acc.scanned + 1
          failed := acc.failed + 1
          errors := acc.errors ++ [winJoin src e ++ ": " ++ w.moveErr src e] }
        l d hsrc hdst hes_nd hlnd
        (fun e' he' => hdisj e' (List.mem_cons_of_mem e he'))
      rw [hstep] at *
      refine ⟨?_, ?_, ?_, ?_, ?_, ?_, ?_⟩
      · rw [hrec.1]
        congr 1
        apply List.filter_congr
        intro n _
        by_cases hne' : n = e
        · subst hne'
          simp [List.contains_cons, hmv']
        · have h1 : (n == e) = false := by simpa using hne'
          simp [hne']
      · rw [hrec.2.1]
        simp [hmv']
      · intro p hp1 hp2
        exact hrec.2.2.1 p hp1 hp2
      · exact hrec.2.2.2.1
      · rw [hrec.2.2.2.2.1]
        simp [hmv']
      · rw [hrec.2.2.2.2.2.1]
        simp only [List.filter_cons, hmv']
        simp
        omega
      · rw [hrec.2.2.2.2.2.2]
        simp
        omega

theorem dirList_mkdirUnder_parent (fs : CleanupFS) (p c : String) :
    (fs.mkdirUnder p c).dirList p =
      some (if c ∈ (fs.dirList p).getD [] then (fs.dirList p).getD []
            else (fs.dirList p).getD [] ++ [c]) := by
  unfold CleanupFS.mkdirUnder
  by_cases hex : ((fs.setDir p
      (if c ∈ (fs.dirList p).getD [] then (fs.dirList p).getD []
       else (fs.dirList p).getD [] ++ [c])).dirExists (winJoin p c)) = true
  · simp only [hex, if_true]
    rw [dirList_setDir, if_pos rfl]
  · simp only [hex, Bool.false_eq_true, if_false]
    rw [dirList_setDir, if_neg (Ne.symm (winJoin_ne_left p c)), dirList_setDir, if_pos rfl]

theorem dirList_mkdirUnder_child (fs : CleanupFS) (p c : String) :
    (fs.mkdirUnder p c).dirList (winJoin p c)
      = some ((fs.dirList (winJoin p c)).getD []) := by
  unfold CleanupFS.mkdirUnder
  have hsd : (fs.setDir p
      (if c ∈ (fs.dirList p).getD [] then (fs.dirList p).getD []
       else (fs.dirList p).getD [] ++ [c])).dirList (winJoin p c)
      = fs.dirList (winJoin p c) := by
    rw [dirList_setDir, if_neg (winJoin_ne_left p c)]
  by_cases hex : ((fs.setDir p
      (if c ∈ (fs.dirList p).getD [] then (fs.dirList p).getD []
       else (fs.dirList p).getD [] ++ [c])).dirExists (winJoin p c)) = true
  · simp only [hex, if_true]
    rw [hsd]
    unfold CleanupFS.dirExists at hex
    rw [hsd] at hex
    cases hv : fs.dirList (winJoin p c) with
    | none => rw [hv] at hex; simp at hex
    | some v => simp
  · simp only [hex, Bool.false_eq_true, if_false]
    rw [dirList_setDir, if_pos rfl]
    unfold CleanupFS.dirExists at hex
    rw [hsd] at hex
    cases hv : fs.dirList (winJoin p c) with
    | none => simp
    | some v => rw [hv] at hex; simp at hex

theorem dirList_mkdirUnder_other (fs : CleanupFS) (p c q : String)
    (h1 : q ≠ p) (h2 : q ≠ winJoin p c) :
    (fs.mkdirUnder p c).dirList q = fs.dirList q := by
  unfold CleanupFS.mkdirUnder
  by_cases hex : ((fs.setDir p
      (if c ∈ (fs.dirList p).getD [] then (fs.dirList p).getD []
       else (fs.dirList p).getD [] ++ [c])).dirExists (winJoin p c)) = true
  · simp only [hex, if_true]
    rw [dirList_setDir, if_neg h1]
  · simp only [hex, Bool.false_eq_true, if_false]
    rw [dirList_setDir, if_neg h2, dirList_setDir, if_neg h1]

theorem manifests_mkdirUnder (fs : CleanupFS) (p c : String) :
    (fs.mkdirUnder p c).manifests = fs.manifests := by
  unfold CleanupFS.mkdirUnder
  by_cases hex : ((fs.setDir p
      (if c ∈ (fs.dirList p).getD [] then (fs.dirList p).getD []
       else (fs.dirList p).getD [] ++ [c])).dirExists (winJoin p c)) = true
  · simp only [hex, if_true]
    rfl
  · simp only [hex, Bool.false_eq_true, if_false]
    rfl

theorem dirList_isSome_of_dirExists {fs : CleanupFS} {p : String}
    (h : fs.dirExists p = true) : fs.dirList p = some ((fs.dirList p).getD []) := by
  unfold CleanupFS.dirExists at h
  cases hv : fs.dirList p with
  | none => rw [hv] at h; simp at h
  | some v => simp

/-- Behaviour of one processed temp directory during `safe_cleanup`: its
successful entries migrate into the fresh destination directory, the
session directory is registered under the backups root, the mapping gains
its entry, and nothing else changes. -/
theorem cleanupDirStep_process_spec (w : CleanupWorld) (backupsRoot timestamp : String)
    (acc : CleanupAcc) (t : String)
    (hex : acc.fs.dirExists t = true)
    (hacc : (w.writable t && w.readable t) = true)
    (hlnd : ((acc.fs.dirList t).getD []).Nodup)
    (htB : t ≠ backupsRoot)
    (htS : t ≠ winJoin backupsRoot timestamp)
    (htD : t ≠ winJoin (winJoin backupsRoot timestamp) (backup_subdir_name t))
    (hDfresh : acc.fs.dirList
      (winJoin (winJoin backupsRoot timestamp) (backup_subdir_name t)) = none) :
    ((cleanupDirStep w backupsRoot timestamp acc t).fs.dirList
        (winJoin (winJoin backupsRoot timestamp) (backup_subdir_name t))
      = some (((acc.fs.dirList t).getD []).filter (fun n => w.moveOk t n)))
    ∧ ((cleanupDirStep w backupsRoot timestamp acc t).fs.dirList t
      = some (((acc.fs.dirList t).getD []).filter (fun n => !(w.moveOk t n))))
    ∧ ((cleanupDirStep w backupsRoot timestamp acc t).fs.dirList backupsRoot
      = some (if timestamp ∈ (acc.fs.dirList backupsRoot).getD []
          then (acc.fs.dirList backupsRoot).getD []
          else (acc.fs.dirList backupsRoot).getD [] ++ [timestamp]))
    ∧ ((cleanupDirStep w backupsRoot timestamp acc t).fs.dirExists
        (winJoin backupsRoot timestamp) = true)
    ∧ (∀ p, p ≠ t →
        p ≠ winJoin (winJoin backupsRoot timestamp) (backup_subdir_name t) →
        p ≠ backupsRoot → p ≠ winJoin backupsRoot timestamp →
        (cleanupDirStep w backupsRoot timestamp acc t).fs.dirList p
          = acc.fs.dirList p)
    ∧ ((cleanupDirStep w backupsRoot timestamp acc t).fs.manifests = acc.fs.manifests)
    ∧ ((cleanupDirStep w backupsRoot timestamp acc t).mapping
      = upsert (backup_subdir_name t) t acc.mapping)
    ∧ ((cleanupDirStep w backupsRoot timestamp acc t).moved
      = acc.moved + (((acc.fs.dirList t).getD []).filter (fun n => w.moveOk t n)).length)
    ∧ ((cleanupDirStep w backupsRoot timestamp acc t).scanned
      = acc.scanned + ((acc.fs.dirList t).getD []).length)
    ∧ ((cleanupDirStep w backupsRoot timestamp acc t).skipped = acc.skipped) := by
  have hstep : cleanupDirStep w backupsRoot timestamp acc t =
      (let destinationName := backup_subdir_name t
       let backupRoot := winJoin backupsRoot timestamp
       let destinationRoot := winJoin backupRoot destinationName
       let mapping := upsert destinationName t acc.mapping
       let fs := (acc.fs.mkdirUnder backupsRoot timestamp).mkdirUnder backupRoot destinationName
       let entries := (fs.dirList t).getD []
       let m := entries.foldl (moveEntriesStep w t destinationRoot)
         ⟨fs, acc.scanned, acc.moved, acc.failed, acc.errors⟩
       { acc with
         fs := m.fs
         mapping := mapping
         scanned := m.scanned
         moved := m.moved
         failed := m.failed
         errors := m.errors }) := by
    unfold cleanupDirStep
    simp [hex, hacc]
  rw [hstep]
  simp only
  -- names for the two directories
  set S := winJoin backupsRoot timestamp with hS
  set D := winJoin S (backup_subdir_name t) with hD
  set fs2 := (acc.fs.mkdirUnder backupsRoot timestamp).mkdirUnder S (backup_subdir_name t)
    with hfs2
  have hBneS : backupsRoot ≠ S := Ne.symm (winJoin_ne_left backupsRoot timestamp)
  have hBneD : backupsRoot ≠ D := Ne.symm (winJoin_ne_base _ _ _)
  have hSneD : S ≠ D := Ne.symm (winJoin_ne_left S (backup_subdir_name t))
  -- the listing of t is untouched by the two mkdirs
  have hfs2t : fs2.dirList t = acc.fs.dirList t := by
    rw [hfs2, dirList_mkdirUnder_other _ _ _ _ htS htD,
      dirList_mkdirUnder_other _ _ _ _ htB htS]
  have hsome : acc.fs.dirList t = some ((acc.fs.dirList t).getD []) :=
    dirList_isSome_of_dirExists hex
  have hfs2D : fs2.dirList D = some [] := by
    rw [hfs2, dirList_mkdirUnder_child]
    have : (acc.fs.mkdirUnder backupsRoot timestamp).dirList D = none := by
      rw [dirList_mkdirUnder_other _ _ _ _ (Ne.symm hBneD) (Ne.symm hSneD)]
      exact hDfresh
    rw [this]
    rfl
  have hfs2B : fs2.dirList backupsRoot =
      some (if timestamp ∈ (acc.fs.dirList backupsRoot).getD []
        then (acc.fs.dirList backupsRoot).getD []
        else (acc.fs.dirList backupsRoot).getD [] ++ [timestamp]) := by
    rw [hfs2, dirList_mkdirUnder_other _ _ _ _ hBneS hBneD,
      dirList_mkdirUnder_parent]
  have hfs2S : fs2.dirList S =
      some (if backup_subdir_name t ∈ (acc.fs.dirList S).getD []
        then (acc.fs.dirList S).getD []
        else (acc.fs.dirList S).getD [] ++ [backup_subdir_name t]) := by
    rw [hfs2, dirList_mkdirUnder_parent, dirList_mkdirUnder_child]
    simp
  have hmv := moveFold_spec w t D htD ((fs2.dirList t).getD [])
    ⟨fs2, acc.scanned, acc.moved, acc.failed, acc.errors⟩
    ((acc.fs.dirList t).getD []) []
    (by simp only; rw [hfs2t]; exact hsome)
    (by simp only; exact hfs2D)
    (by rw [hfs2t]; exact hlnd) hlnd
    (by intro e _; exact List.not_mem_nil e)
  simp only at hmv
  have hes : (fs2.dirList t).getD [] = (acc.fs.dirList t).getD [] := by rw [hfs2t]
  rw [hes] at hmv
  rw [show (fs2.dirList t) = acc.fs.dirList t from hfs2t]
  refine ⟨?_, ?_, ?_, ?_, ?_, ?_, ?_, ?_, ?_, ?_⟩
  · rw [hmv.2.1]
    simp
  · rw [hmv.1]
    congr 1
    apply List.filter_congr
    intro n hn
    have : ((acc.fs.dirList t).getD []).contains n = true := by
      simpa using hn
    rw [this]
    simp
  · rw [hmv.2.2.1 backupsRoot (Ne.symm htB) hBneD]
    exact hfs2B
  · have hfr := hmv.2.2.1 S (Ne.symm htS) hSneD
    unfold CleanupFS.dirExists
    rw [hfr, hfs2S]
    rfl
  · intro p hpt hpD hpB hpS
    rw [hmv.2.2.1 p hpt hpD]
    rw [hfs2, dirList_mkdirUnder_other _ _ _ _ hpS hpD,
      dirList_mkdirUnder_other _ _ _ _ hpB hpS]
  · rw [hmv.2.2.2.1, hfs2, manifests_mkdirUnder, manifests_mkdirUnder]
  · trivial
  · rw [hmv.2.2.2.2.1]
  · rw [hmv.2.2.2.2.2.2]
  · trivial

/-- A temp-dir target is processed by `safe_cleanup` (rather than skipped)
when it exists and both access checks pass. -/
def isProcessed (w : CleanupWorld) (fs : CleanupFS) (t : String) : Bool :=
  fs.dirExists t && (w.writable t && w.readable t)

theorem cleanupDirStep_skip_spec (w : CleanupWorld) (backupsRoot timestamp : String)
    (acc : CleanupAcc) (t : String)
    (h : isProcessed w acc.fs t = false) :
    (cleanupDirStep w backupsRoot timestamp acc t).fs = acc.fs
    ∧ (cleanupDirStep w backupsRoot timestamp acc t).mapping = acc.mapping
    ∧ (cleanupDirStep w backupsRoot timestamp acc t).moved = acc.moved := by
  unfold isProcessed at h
  unfold cleanupDirStep
  by_cases h1 : acc.fs.dirExists t = true
  · have h2 : ¬ (w.writable t && w.readable t) = true := by
      intro hc
      rw [h1, hc] at h
      simp at h
    simp [h1, h2]
  · simp [h1]

/-- Full characterization of `safe_cleanup`'s fold over the temp-dir targets,
relative to an arbitrary starting accumulator, under freshness and
distinctness side conditions: each processed target ends up split between
its own listing (failed moves) and its backup destination (successful
moves), skipped targets and unrelated keys are untouched, the backup-root
and session listings are extended, the manifest store is untouched, and the
mapping/moved fields advance by the processed targets' contributions. -/
theorem cleanupFold_spec (w : CleanupWorld) (backupsRoot timestamp : String) :
    ∀ (ds : List String) (acc : CleanupAcc),
    (ds.map backup_subdir_name).Nodup →
    (∀ t ∈ ds, t ≠ backupsRoot ∧ t ≠ winJoin backupsRoot timestamp ∧
      ∀ t' ∈ ds, t ≠ winJoin (winJoin backupsRoot timestamp) (backup_subdir_name t')) →
    (∀ t ∈ ds, acc.fs.dirList
      (winJoin (winJoin backupsRoot timestamp) (backup_subdir_name t)) = none) →
    (∀ t ∈ ds, ((acc.fs.dirList t).getD []).Nodup) →
    (∀ t ∈ ds, acc.mapping.lookup (backup_subdir_name t) = none) →
    ((∀ t ∈ ds, isProcessed w acc.fs t = true →
        (ds.foldl (cleanupDirStep w backupsRoot timestamp) acc).fs.dirList
            (winJoin (winJoin backupsRoot timestamp) (backup_subdir_name t))
          = some (((acc.fs.dirList t).getD []).filter (fun n => w.moveOk t n))
        ∧ (ds.foldl (cleanupDirStep w backupsRoot timestamp) acc).fs.dirList t
          = some (((acc.fs.dirList t).getD []).filter (fun n => !(w.moveOk t n))))
    ∧ (∀ t ∈ ds, isProcessed w acc.fs t = false →
        (ds.foldl (cleanupDirStep w backupsRoot timestamp) acc).fs.dirList
            (winJoin (winJoin backupsRoot timestamp) (backup_subdir_name t)) = none
        ∧ (ds.foldl (cleanupDirStep w backupsRoot timestamp) acc).fs.dirList t
          = acc.fs.dirList t)
    ∧ (ds.filter (isProcessed w acc.fs) = [] →
        (ds.foldl (cleanupDirStep w backupsRoot timestamp) acc).fs = acc.fs)
    ∧ (ds.filter (isProcessed w acc.fs) ≠ [] →
        (ds.foldl (cleanupDirStep w backupsRoot timestamp) acc).fs.dirList backupsRoot
          = some (if timestamp ∈ (acc.fs.dirList backupsRoot).getD []
              then (acc.fs.dirList backupsRoot).getD []
              else (acc.fs.dirList backupsRoot).getD [] ++ [timestamp])
        ∧ (ds.foldl (cleanupDirStep w backupsRoot timestamp) acc).fs.dirExists
            (winJoin backupsRoot timestamp) = true)
    ∧ (∀ p, p ∉ ds →
        (∀ t ∈ ds, p ≠ winJoin (winJoin backupsRoot timestamp) (backup_subdir_name t)) →
        p ≠ backupsRoot → p ≠ winJoin backupsRoot timestamp →
        (ds.foldl (cleanupDirStep w backupsRoot timestamp) acc).fs.dirList p
          = acc.fs.dirList p)
    ∧ (ds.foldl (cleanupDirStep w backupsRoot timestamp) acc).fs.manifests
        = acc.fs.manifests
    ∧ (ds.foldl (cleanupDirStep w backupsRoot timestamp) acc).mapping
        = acc.mapping ++ (ds.filter (isProcessed w acc.fs)).map
            (fun t => (backup_subdir_name t, t))
    ∧ (ds.foldl (cleanupDirStep w backupsRoot timestamp) acc).moved
        = acc.moved + ((ds.filter (isProcessed w acc.fs)).map
            (fun t => (((acc.fs.dirList t).getD []).filter
              (fun n => w.moveOk t n)).length)).sum) := by
  intro ds
  induction ds with
  | nil =>
    intro acc _ _ _ _ _
    refine ⟨?_, ?_, ?_, ?_, ?_, rfl, ?_, ?_⟩
    · intro t ht; exact absurd ht (List.not_mem_nil t)
    · intro t ht; exact absurd ht (List.not_mem_nil t)
    · intro _; rfl
    · intro h; exact absurd rfl h
    · intro p _ _ _ _; rfl
    · simp
    · simp
  | cons t rest ih =>
    intro acc hnames hfar hDfresh hlnd hmap
    rw [List.map_cons] at hnames
    have hname_not := (List.nodup_cons.mp hnames).1
    have hnames_nd := (List.nodup_cons.mp hnames).2
    have hname_ne : ∀ t' ∈ rest, backup_subdir_name t' ≠ backup_subdir_name t := by
      intro t' ht' he
      exact hname_not (he ▸ List.mem_map_of_mem backup_subdir_name ht')
    have ht_mem : t ∈ t :: rest := List.mem_cons_self t rest
    have htB := (hfar t ht_mem).1
    have htS := (hfar t ht_mem).2.1
    have htD := (hfar t ht_mem).2.2 t ht_mem
    have ht_notmem : t ∉ rest := fun hmem => hname_ne t hmem rfl
    have hDt_notmem : winJoin (winJoin backupsRoot timestamp) (backup_subdir_name t) ∉ rest :=
      fun hmem => (hfar _ (List.mem_cons_of_mem t hmem)).2.2 t ht_mem rfl
    have hDtneDr : ∀ t' ∈ rest,
        winJoin (winJoin backupsRoot timestamp) (backup_subdir_name t)
          ≠ winJoin (winJoin backupsRoot timestamp) (backup_subdir_name t') := by
      intro t' ht' h
      exact hname_ne t' ht' (winJoin_right_inj h).symm
    have hDtB : winJoin (winJoin backupsRoot timestamp) (backup_subdir_name t)
        ≠ backupsRoot := winJoin_ne_base backupsRoot timestamp (backup_subdir_name t)
    have hDtS : winJoin (winJoin backupsRoot timestamp) (backup_subdir_name t)
        ≠ winJoin backupsRoot timestamp :=
      winJoin_ne_left (winJoin backupsRoot timestamp) (backup_subdir_name t)
    have htneDr : ∀ t' ∈ rest,
        t ≠ winJoin (winJoin backupsRoot timestamp) (backup_subdir_name t') :=
      fun t' ht' => (hfar t ht_mem).2.2 t' (List.mem_cons_of_mem t ht')
    have hfar' : ∀ t' ∈ rest, t' ≠ backupsRoot ∧ t' ≠ winJoin backupsRoot timestamp ∧
        ∀ t'' ∈ rest,
          t' ≠ winJoin (winJoin backupsRoot timestamp) (backup_subdir_name t'') := by
      intro t' ht'
      exact ⟨(hfar t' (List.mem_cons_of_mem t ht')).1,
        (hfar t' (List.mem_cons_of_mem t ht')).2.1,
        fun t'' ht'' => (hfar t' (List.mem_cons_of_mem t ht')).2.2 t''
          (List.mem_cons_of_mem t ht'')⟩
    simp only [List.foldl_cons]
    by_cases hp : isProcessed w acc.fs t = true
    · -- the head target is processed
      have hex : acc.fs.dirExists t = true ∧ (w.writable t && w.readable t) = true := by
        unfold isProcessed at hp
        rw [Bool.and_eq_true] at hp
        exact hp
      have hspec := cleanupDirStep_process_spec w backupsRoot timestamp acc t
        hex.1 hex.2 (hlnd t ht_mem) htB htS htD (hDfresh t ht_mem)
      have hframe := hspec.2.2.2.2.1
      have hkeep : ∀ t' ∈ rest,
          (cleanupDirStep w backupsRoot timestamp acc t).fs.dirList t'
            = acc.fs.dirList t' := by
        intro t' ht'
        exact hframe t' (fun he => hname_ne t' ht' (by rw [he]))
          ((hfar t' (List.mem_cons_of_mem t ht')).2.2 t ht_mem)
          (hfar' t' ht').1 (hfar' t' ht').2.1
      have hkeepD : ∀ t' ∈ rest,
          (cleanupDirStep w backupsRoot timestamp acc t).fs.dirList
              (winJoin (winJoin backupsRoot timestamp) (backup_subdir_name t'))
            = acc.fs.dirList
              (winJoin (winJoin backupsRoot timestamp) (backup_subdir_name t')) := by
        intro t' ht'
        exact hframe _ (fun he => htneDr t' ht' he.symm)
          (fun he => hname_ne t' ht' (winJoin_right_inj he))
          (winJoin_ne_base backupsRoot timestamp (backup_subdir_name t'))
          (winJoin_ne_left (winJoin backupsRoot timestamp) (backup_subdir_name t'))
      have hproc_eq : ∀ t' ∈ rest,
          isProcessed w (cleanupDirStep w backupsRoot timestamp acc t).fs t'
            = isProcessed w acc.fs t' := by
        intro t' ht'
        unfold isProcessed CleanupFS.dirExists
        rw [hkeep t' ht']
      have hfilter_eq :
          rest.filter (isProcessed w (cleanupDirStep w backupsRoot timestamp acc t).fs)
            = rest.filter (isProcessed w acc.fs) :=
        List.filter_congr hproc_eq
      have hmapacc' : (cleanupDirStep w backupsRoot timestamp acc t).mapping
          = acc.mapping ++ [(backup_subdir_name t, t)] := by
        rw [hspec.2.2.2.2.2.2.1]
        exact upsert_eq_append _ _ _ (hmap t ht_mem)
      have IH := ih (cleanupDirStep w backupsRoot timestamp acc t)
        hnames_nd hfar'
        (by
          intro t' ht'
          rw [hkeepD t' ht']
          exact hDfresh t' (List.mem_cons_of_mem t ht'))
        (by
          intro t' ht'
          rw [hkeep t' ht']
          exact hlnd t' (List.mem_cons_of_mem t ht'))
        (by
          intro t' ht'
          rw [hmapacc']
          refine lookup_append_none _ _ _ (hmap t' (List.mem_cons_of_mem t ht')) ?_
          have hbf : (backup_subdir_name t' == backup_subdir_name t) = false :=
            beq_eq_false_iff_ne.mpr (hname_ne t' ht')
          simp [List.lookup, hbf])
      refine ⟨?_, ?_, ?_, ?_, ?_, ?_, ?_, ?_⟩
      · -- processed targets
        intro t0 ht0 hpt0
        rcases List.mem_cons.mp ht0 with rfl | ht0r
        · constructor
          · rw [IH.2.2.2.2.1 _ hDt_notmem hDtneDr hDtB hDtS]
            exact hspec.1
          · rw [IH.2.2.2.2.1 t0 ht_notmem htneDr htB htS]
            exact hspec.2.1
        · have hp0' : isProcessed w (cleanupDirStep w backupsRoot timestamp acc t).fs t0
              = true := by
            rw [hproc_eq t0 ht0r]; exact hpt0
          have h0 := IH.1 t0 ht0r hp0'
          rw [hkeep t0 ht0r] at h0
          exact h0
      · -- skipped targets
        intro t0 ht0 hpt0
        rcases List.mem_cons.mp ht0 with rfl | ht0r
        · rw [hp] at hpt0
          exact absurd hpt0.symm Bool.false_ne_true
        · have hp0' : isProcessed w (cleanupDirStep w backupsRoot timestamp acc t).fs t0
              = false := by
            rw [hproc_eq t0 ht0r]; exact hpt0
          have h0 := IH.2.1 t0 ht0r hp0'
          rw [hkeep t0 ht0r] at h0
          exact h0
      · -- no target processed (impossible here)
        intro h
        rw [List.filter_cons, if_pos hp] at h
        exact absurd h (List.cons_ne_nil _ _)
      · -- backup root and session listings
        intro _
        constructor
        · by_cases hrest :
              rest.filter (isProcessed w (cleanupDirStep w backupsRoot timestamp acc t).fs)
                = []
          · rw [IH.2.2.1 hrest]
            exact hspec.2.2.1
          · have h3 := (IH.2.2.2.1 hrest).1
            rw [hspec.2.2.1] at h3
            simp only [Option.getD_some] at h3
            have hts_mem : timestamp ∈
                (if timestamp ∈ (acc.fs.dirList backupsRoot).getD []
                  then (acc.fs.dirList backupsRoot).getD []
                  else (acc.fs.dirList backupsRoot).getD [] ++ [timestamp]) := by
              by_cases hmem : timestamp ∈ (acc.fs.dirList backupsRoot).getD [] <;>
                simp [hmem]
            rw [if_pos hts_mem] at h3
            exact h3
        · exact cleanupFold_dirExists_mono w backupsRoot timestamp rest _ _
            hspec.2.2.2.1
      · -- frame: unrelated keys
        intro p hpm hpD hpB hpS
        rw [IH.2.2.2.2.1 p (fun h => hpm (List.mem_cons_of_mem t h))
          (fun t' ht' => hpD t' (List.mem_cons_of_mem t ht')) hpB hpS]
        exact hframe p (fun he => hpm (he ▸ ht_mem)) (hpD t ht_mem) hpB hpS
      · -- manifests untouched
        rw [IH.2.2.2.2.2.1]
        exact hspec.2.2.2.2.2.1
      · -- mapping
        rw [IH.2.2.2.2.2.2.1, hfilter_eq, hmapacc']
        simp [List.filter_cons, hp, List.append_assoc]
      · -- moved
        rw [IH.2.2.2.2.2.2.2, hfilter_eq, hspec.2.2.2.2.2.2.2.1]
        have hmapeq : (rest.filter (isProcessed w acc.fs)).map
            (fun t' => ((((cleanupDirStep w backupsRoot timestamp acc t).fs.dirList
              t').getD []).filter (fun n => w.moveOk t' n)).length)
            = (rest.filter (isProcessed w acc.fs)).map
            (fun t' => (((acc.fs.dirList t').getD []).filter
              (fun n => w.moveOk t' n)).length) := by
          apply List.map_congr_left
          intro a ha
          rw [hkeep a (List.mem_filter.mp ha).1]
        rw [hmapeq]
        simp [List.filter_cons, hp, Nat.add_assoc]
    · -- the head target is skipped
      have hpf : isProcessed w acc.fs t = false := Bool.eq_false_iff.mpr hp
      have hskip := cleanupDirStep_skip_spec w backupsRoot timestamp acc t hpf
      have hfilter_eq :
          rest.filter (isProcessed w (cleanupDirStep w backupsRoot timestamp acc t).fs)
            = rest.filter (isProcessed w acc.fs) := by
        rw [hskip.1]
      have IH := ih (cleanupDirStep w backupsRoot timestamp acc t)
        hnames_nd hfar'
        (by
          intro t' ht'
          rw [hskip.1]
          exact hDfresh t' (List.mem_cons_of_mem t ht'))
        (by
          intro t' ht'
          rw [hskip.1]
          exact hlnd t' (List.mem_cons_of_mem t ht'))
        (by
          intro t' ht'
          rw [hskip.2.1]
          exact hmap t' (List.mem_cons_of_mem t ht'))
      refine ⟨?_, ?_, ?_, ?_, ?_, ?_, ?_, ?_⟩
      · intro t0 ht0 hpt0
        rcases List.mem_cons.mp ht0 with rfl | ht0r
        · rw [hpf] at hpt0
          simp at hpt0
        · have hp0' : isProcessed w (cleanupDirStep w backupsRoot timestamp acc t).fs t0
              = true := by
            rw [hskip.1]; exact hpt0
          have h0 := IH.1 t0 ht0r hp0'
          rw [hskip.1] at h0
          exact h0
      · intro t0 ht0 hpt0
        rcases List.mem_cons.mp ht0 with rfl | ht0r
        · constructor
          · rw [IH.2.2.2.2.1 _ hDt_notmem hDtneDr hDtB hDtS, hskip.1]
            exact hDfresh t0 ht_mem
          · rw [IH.2.2.2.2.1 t0 ht_notmem htneDr htB htS, hskip.1]
        · have hp0' : isProcessed w (cleanupDirStep w backupsRoot timestamp acc t).fs t0
              = false := by
            rw [hskip.1]; exact hpt0
          have h0 := IH.2.1 t0 ht0r hp0'
          rw [hskip.1] at h0
          exact h0
      · intro h
        rw [List.filter_cons, if_neg (by rw [hpf]; exact Bool.false_ne_true)] at h
        rw [IH.2.2.1 (by rw [hfilter_eq]; exact h), hskip.1]
      · intro h
        rw [List.filter_cons, if_neg (by rw [hpf]; exact Bool.false_ne_true)] at h
        have h3 := IH.2.2.2.1 (by rw [hfilter_eq]; exact h)
        constructor
        · rw [h3.1.symm.symm, hskip.1]
        · exact h3.2
      · intro p hpm hpD hpB hpS
        rw [IH.2.2.2.2.1 p (fun h => hpm (List.mem_cons_of_mem t h))
          (fun t' ht' => hpD t' (List.mem_cons_of_mem t ht')) hpB hpS, hskip.1]
      · rw [IH.2.2.2.2.2.1, hskip.1]
      · rw [IH.2.2.2.2.2.2.1, hfilter_eq, hskip.2.1]
        rw [List.filter_cons, if_neg (by rw [hpf]; exact Bool.false_ne_true)]
      · rw [IH.2.2.2.2.2.2.2, hfilter_eq, hskip.2.2, hskip.1]
        rw [List.filter_cons, if_neg (by rw [hpf]; exact Bool.false_ne_true)]

/-- One `restore_latest_backup` manifest item, in the interference-free case:
the source exists, the destination exists, and every entry moves
successfully.  All source entries are appended to the destination listing,
everything else is untouched, and `moved` advances by the source size. -/
theorem restoreDirStep_process_spec (w : CleanupWorld) (L : String)
    (acc : RestoreAcc) (kv : String × String)
    (hsrc : acc.fs.dirExists (winJoin L kv.1) = true)
    (hdst : acc.fs.dirExists kv.2 = true)
    (hne : winJoin L kv.1 ≠ kv.2)
    (hnd : ((acc.fs.dirList (winJoin L kv.1)).getD []).Nodup)
    (hdisj : ∀ e ∈ (acc.fs.dirList (winJoin L kv.1)).getD [],
      e ∉ (acc.fs.dirList kv.2).getD [] ∧ w.moveOk (winJoin L kv.1) e = true) :
    (restoreDirStep w L acc kv).fs.dirList kv.2
      = some ((acc.fs.dirList kv.2).getD []
          ++ (acc.fs.dirList (winJoin L kv.1)).getD [])
    ∧ (∀ p, p ≠ kv.2 → p ≠ winJoin L kv.1 →
        (restoreDirStep w L acc kv).fs.dirList p = acc.fs.dirList p)
    ∧ (restoreDirStep w L acc kv).fs.manifests = acc.fs.manifests
    ∧ (restoreDirStep w L acc kv).moved
      = acc.moved + ((acc.fs.dirList (winJoin L kv.1)).getD []).length := by
  have hstep : restoreDirStep w L acc kv =
      (let m := ((acc.fs.dirList (winJoin L kv.1)).getD []).foldl
        (moveEntriesStep w (winJoin L kv.1) kv.2)
        ⟨acc.fs, acc.scanned, acc.moved, acc.failed, acc.errors⟩
       { acc with
         fs := m.fs
         scanned := m.scanned
         moved := m.moved
         failed := m.failed
         errors := m.errors }) := by
    unfold restoreDirStep
    simp [hsrc, hdst]
  rw [hstep]
  simp only
  have hsomeS : acc.fs.dirList (winJoin L kv.1)
      = some ((acc.fs.dirList (winJoin L kv.1)).getD []) :=
    dirList_isSome_of_dirExists hsrc
  have hsomeD : acc.fs.dirList kv.2 = some ((acc.fs.dirList kv.2).getD []) :=
    dirList_isSome_of_dirExists hdst
  have hmv := moveFold_spec w (winJoin L kv.1) kv.2 hne
    ((acc.fs.dirList (winJoin L kv.1)).getD [])
    ⟨acc.fs, acc.scanned, acc.moved, acc.failed, acc.errors⟩
    ((acc.fs.dirList (winJoin L kv.1)).getD [])
    ((acc.fs.dirList kv.2).getD [])
    hsomeS hsomeD hnd hnd
    (fun e he => (hdisj e he).1)
  simp only at hmv
  have hfilter_all : ((acc.fs.dirList (winJoin L kv.1)).getD []).filter
      (fun e => w.moveOk (winJoin L kv.1) e)
      = (acc.fs.dirList (winJoin L kv.1)).getD [] := by
    apply List.filter_eq_self.mpr
    intro a ha
    exact (hdisj a ha).2
  refine ⟨?_, ?_, ?_, ?_⟩
  · rw [hmv.2.1, hfilter_all]
  · intro p hp2 hp1
    exact hmv.2.2.1 p hp1 hp2
  · exact hmv.2.2.2.1
  · rw [hmv.2.2.2.2.1, hfilter_all]

/-- Characterization of `restore_latest_backup`'s fold over the manifest
items when all sources and destinations exist, the keys are pairwise
distinct and non-aliasing, and every move succeeds: each destination gains
exactly its source's entries, unrelated keys are untouched, and `moved`
advances by the total source size. -/
theorem restoreFold_spec (w : CleanupWorld) (L : String) :
    ∀ (items : List (String × String)) (acc : RestoreAcc),
    (items.map Prod.fst).Nodup →
    (items.map Prod.snd).Nodup →
    (∀ kv ∈ items, ∀ kv' ∈ items, kv.2 ≠ winJoin L kv'.1) →
    (∀ kv ∈ items, acc.fs.dirExists (winJoin L kv.1) = true) →
    (∀ kv ∈ items, acc.fs.dirExists kv.2 = true) →
    (∀ kv ∈ items, ((acc.fs.dirList (winJoin L kv.1)).getD []).Nodup) →
    (∀ kv ∈ items, ∀ e ∈ (acc.fs.dirList (winJoin L kv.1)).getD [],
      e ∉ (acc.fs.dirList kv.2).getD [] ∧ w.moveOk (winJoin L kv.1) e = true) →
    ((∀ kv ∈ items, (items.foldl (restoreDirStep w L) acc).fs.dirList kv.2
        = some ((acc.fs.dirList kv.2).getD []
            ++ (acc.fs.dirList (winJoin L kv.1)).getD []))
    ∧ (∀ p, (∀ kv ∈ items, p ≠ kv.2 ∧ p ≠ winJoin L kv.1) →
        (items.foldl (restoreDirStep w L) acc).fs.dirList p = acc.fs.dirList p)
    ∧ (items.foldl (restoreDirStep w L) acc).moved
        = acc.moved + (items.map
            (fun kv => ((acc.fs.dirList (winJoin L kv.1)).getD []).length)).sum) := by
  intro items
  induction items with
  | nil =>
    intro acc _ _ _ _ _ _ _
    refine ⟨?_, ?_, ?_⟩
    · intro kv hkv; exact absurd hkv (List.not_mem_nil kv)
    · intro p _; rfl
    · simp
  | cons kv rest ih =>
    intro acc h1 h2 h3 h4 h5 h6 h7
    rw [List.map_cons] at h1 h2
    have hfst_not := (List.nodup_cons.mp h1).1
    have hfst_nd := (List.nodup_cons.mp h1).2
    have hsnd_not := (List.nodup_cons.mp h2).1
    have hsnd_nd := (List.nodup_cons.mp h2).2
    have hkv_mem : kv ∈ kv :: rest := List.mem_cons_self kv rest
    have hsnd_ne : ∀ kv' ∈ rest, kv'.2 ≠ kv.2 := by
      intro kv' hkv' he
      exact hsnd_not (he ▸ List.mem_map_of_mem Prod.snd hkv')
    have hfst_ne : ∀ kv' ∈ rest, kv'.1 ≠ kv.1 := by
      intro kv' hkv' he
      exact hfst_not (he ▸ List.mem_map_of_mem Prod.fst hkv')
    have hsrc_ne : ∀ kv' ∈ rest, winJoin L kv'.1 ≠ winJoin L kv.1 := by
      intro kv' hkv' he
      exact hfst_ne kv' hkv' (winJoin_right_inj he)
    have hspec := restoreDirStep_process_spec w L acc kv
      (h4 kv hkv_mem) (h5 kv hkv_mem)
      (Ne.symm (h3 kv hkv_mem kv hkv_mem))
      (h6 kv hkv_mem) (h7 kv hkv_mem)
    have hframe := hspec.2.1
    have hkeepSrc : ∀ kv' ∈ rest,
        (restoreDirStep w L acc kv).fs.dirList (winJoin L kv'.1)
          = acc.fs.dirList (winJoin L kv'.1) := by
      intro kv' hkv'
      exact hframe _
        (Ne.symm (h3 kv hkv_mem kv' (List.mem_cons_of_mem kv hkv')))
        (hsrc_ne kv' hkv')
    have hkeepDst : ∀ kv' ∈ rest,
        (restoreDirStep w L acc kv).fs.dirList kv'.2 = acc.fs.dirList kv'.2 := by
      intro kv' hkv'
      exact hframe _ (hsnd_ne kv' hkv')
        (h3 kv' (List.mem_cons_of_mem kv hkv') kv hkv_mem)
    have IH := ih (restoreDirStep w L acc kv) hfst_nd hsnd_nd
      (fun a ha b hb => h3 a (List.mem_cons_of_mem kv ha) b (List.mem_cons_of_mem kv hb))
      (by
        intro kv' hkv'
        unfold CleanupFS.dirExists
        rw [hkeepSrc kv' hkv']
        exact h4 kv' (List.mem_cons_of_mem kv hkv'))
      (by
        intro kv' hkv'
        unfold CleanupFS.dirExists
        rw [hkeepDst kv' hkv']
        exact h5 kv' (List.mem_cons_of_mem kv hkv'))
      (by
        intro kv' hkv'
        rw [hkeepSrc kv' hkv']
        exact h6 kv' (List.mem_cons_of_mem kv hkv'))
      (by
        intro kv' hkv'
        rw [hkeepSrc kv' hkv', hkeepDst kv' hkv']
        exact h7 kv' (List.mem_cons_of_mem kv hkv'))
    simp only [List.foldl_cons]
    refine ⟨?_, ?_, ?_⟩
    · intro kv0 hkv0
      rcases List.mem_cons.mp hkv0 with rfl | hkv0r
      · rw [IH.2.1 kv0.2 (fun kv' hkv' =>
          ⟨Ne.symm (hsnd_ne kv' hkv'),
           h3 kv0 hkv_mem kv' (List.mem_cons_of_mem kv0 hkv')⟩)]
        exact hspec.1
      · have h0 := IH.1 kv0 hkv0r
        rw [hkeepSrc kv0 hkv0r, hkeepDst kv0 hkv0r] at h0
        exact h0
    · intro p hp
      rw [IH.2.1 p (fun kv' hkv' => hp kv' (List.mem_cons_of_mem kv hkv'))]
      exact hframe p (hp kv hkv_mem).1 (hp kv hkv_mem).2
    · rw [IH.2.2, hspec.2.2.2]
      have hmapeq : (rest.map
          (fun kv' => (((restoreDirStep w L acc kv).fs.dirList
            (winJoin L kv'.1)).getD []).length))
          = (rest.map
          (fun kv' => ((acc.fs.dirList (winJoin L kv'.1)).getD []).length)) := by
        apply List.map_congr_left
        intro a ha
        rw [hkeepSrc a ha]
      rw [hmapeq]
      simp [Nat.add_assoc]

/-- `cleanupFold_spec` at the accumulator `safe_cleanup` actually starts
from: empty mapping, zero counters, the initial filesystem. -/
theorem cleanupFold_spec_init (w : CleanupWorld) (backupsRoot timestamp : String)
    (ds : List String) (fs : CleanupFS)
    (hnames : (ds.map backup_subdir_name).Nodup)
    (hfar : ∀ t ∈ ds, t ≠ backupsRoot ∧ t ≠ winJoin backupsRoot timestamp ∧
      ∀ t' ∈ ds, t ≠ winJoin (winJoin backupsRoot timestamp) (backup_subdir_name t'))
    (hDfresh : ∀ t ∈ ds, fs.dirList
      (winJoin (winJoin backupsRoot timestamp) (backup_subdir_name t)) = none)
    (hlnd : ∀ t ∈ ds, ((fs.dirList t).getD []).Nodup) :
    ((∀ t ∈ ds, isProcessed w fs t = true →
        (ds.foldl (cleanupDirStep w backupsRoot timestamp)
            ⟨fs, [], 0, 0, 0, 0, []⟩).fs.dirList
            (winJoin (winJoin backupsRoot timestamp) (backup_subdir_name t))
          = some (((fs.dirList t).getD []).filter (fun n => w.moveOk t n))
        ∧ (ds.foldl (cleanupDirStep w backupsRoot timestamp)
            ⟨fs, [], 0, 0, 0, 0, []⟩).fs.dirList t
          = some (((fs.dirList t).getD []).filter (fun n => !(w.moveOk t n))))
    ∧ (∀ t ∈ ds, isProcessed w fs t = false →
        (ds.foldl (cleanupDirStep w backupsRoot timestamp)
            ⟨fs, [], 0, 0, 0, 0, []⟩).fs.dirList
            (winJoin (winJoin backupsRoot timestamp) (backup_subdir_name t)) = none
        ∧ (ds.foldl (cleanupDirStep w backupsRoot timestamp)
            ⟨fs, [], 0, 0, 0, 0, []⟩).fs.dirList t = fs.dirList t)
    ∧ (ds.filter (isProcessed w fs) ≠ [] →
        (ds.foldl (cleanupDirStep w backupsRoot timestamp)
            ⟨fs, [], 0, 0, 0, 0, []⟩).fs.dirList backupsRoot
          = some (if timestamp ∈ (fs.dirList backupsRoot).getD []
              then (fs.dirList backupsRoot).getD []
              else (fs.dirList backupsRoot).getD [] ++ [timestamp])
        ∧ (ds.foldl (cleanupDirStep w backupsRoot timestamp)
            ⟨fs, [], 0, 0, 0, 0, []⟩).fs.dirExists
            (winJoin backupsRoot timestamp) = true)
    ∧ (∀ p, p ∉ ds →
        (∀ t ∈ ds, p ≠ winJoin (winJoin backupsRoot timestamp) (backup_subdir_name t)) →
        p ≠ backupsRoot → p ≠ winJoin backupsRoot timestamp →
        (ds.foldl (cleanupDirStep w backupsRoot timestamp)
            ⟨fs, [], 0, 0, 0, 0, []⟩).fs.dirList p = fs.dirList p)
    ∧ (ds.foldl (cleanupDirStep w backupsRoot timestamp)
        ⟨fs, [], 0, 0, 0, 0, []⟩).fs.manifests = fs.manifests
    ∧ (ds.foldl (cleanupDirStep w backupsRoot timestamp)
        ⟨fs, [], 0, 0, 0, 0, []⟩).mapping
        = (ds.filter (isProcessed w fs)).map (fun t => (backup_subdir_name t, t))
    ∧ (ds.foldl (cleanupDirStep w backupsRoot timestamp)
        ⟨fs, [], 0, 0, 0, 0, []⟩).moved
        = ((ds.filter (isProcessed w fs)).map
            (fun t => (((fs.dirList t).getD []).filter
              (fun n => w.moveOk t n)).length)).sum) := by
  have h := cleanupFold_spec w backupsRoot timestamp ds ⟨fs, [], 0, 0, 0, 0, []⟩
    hnames hfar hDfresh hlnd (fun t _ => rfl)
  refine ⟨h.1, h.2.1, h.2.2.2.1, h.2.2.2.2.1, h.2.2.2.2.2.1, ?_, ?_⟩
  · rw [h.2.2.2.2.2.2.1]
    exact List.nil_append _
  · rw [h.2.2.2.2.2.2.2]
    exact Nat.zero_add _

/-- `restoreFold_spec` at the accumulator `restore_latest_backup` actually
starts from: zero counters, the post-apply filesystem. -/
theorem restoreFold_spec_init (w : CleanupWorld) (L : String)
    (items : List (String × String)) (fs : CleanupFS)
    (h1 : (items.map Prod.fst).Nodup)
    (h2 : (items.map Prod.snd).Nodup)
    (h3 : ∀ kv ∈ items, ∀ kv' ∈ items, kv.2 ≠ winJoin L kv'.1)
    (h4 : ∀ kv ∈ items, fs.dirExists (winJoin L kv.1) = true)
    (h5 : ∀ kv ∈ items, fs.dirExists kv.2 = true)
    (h6 : ∀ kv ∈ items, ((fs.dirList (winJoin L kv.1)).getD []).Nodup)
    (h7 : ∀ kv ∈ items, ∀ e ∈ (fs.dirList (winJoin L kv.1)).getD [],
      e ∉ (fs.dirList kv.2).getD [] ∧ w.moveOk (winJoin L kv.1) e = true) :
    ((∀ kv ∈ items, (items.foldl (restoreDirStep w L)
        ⟨fs, 0, 0, 0, 0, []⟩).fs.dirList kv.2
        = some ((fs.dirList kv.2).getD [] ++ (fs.dirList (winJoin L kv.1)).getD []))
    ∧ (∀ p, (∀ kv ∈ items, p ≠ kv.2 ∧ p ≠ winJoin L kv.1) →
        (items.foldl (restoreDirStep w L) ⟨fs, 0, 0, 0, 0, []⟩).fs.dirList p
          = fs.dirList p)
    ∧ (items.foldl (restoreDirStep w L) ⟨fs, 0, 0, 0, 0, []⟩).moved
        = (items.map
            (fun kv => ((fs.dirList (winJoin L kv.1)).getD []).length)).sum) := by
  have h := restoreFold_spec w L items ⟨fs, 0, 0, 0, 0, []⟩ h1 h2 h3 h4 h5 h6 h7
  refine ⟨h.1, h.2.1, ?_⟩
  · rw [h.2.2]
    exact Nat.zero_add _

/-- C2 counterexample.  The claim says that after a Cleanup apply with at
least one moved entry and no external interference, an immediate restore
returns every moved entry to its original path.  But `_backup_subdir_name`
is not injective: with `TEMP=X_Temp` and `WINDIR=X` the two targets
`X_Temp` and `X\Temp` both map to the backup subdirectory name `X_Temp`,
the manifest's dict upsert keeps only the destination of the second target,
and the restore sends both targets' entries to `X\Temp`.  Concretely,
entry `a` starts in `X_Temp`, is moved by apply, every operation succeeds,
`restore.moved = apply.moved = 2`, and yet `a` is not back in `X_Temp`
after the restore. -/
theorem cleanup_roundtrip_counterexample :
    (let w : CleanupWorld := ⟨fun _ => true, fun _ => true, fun _ _ => true,
       fun _ _ => "", fun _ => true, fun _ => ""⟩
     let env : CleanupEnv := ⟨some "X_Temp", none, some "X"⟩
     let fs0 : CleanupFS := ⟨[("X_Temp", ["a"]), ("X\\Temp", ["b"])], []⟩
     let ar := safe_cleanup w env "B" "T1" fs0
     let rr := restore_latest_backup w "B" ar.2
     1 ≤ ar.1.moved
     ∧ "a" ∈ (fs0.dirList "X_Temp").getD []
     ∧ "a" ∉ (ar.2.dirList "X_Temp").getD []
     ∧ rr.1.moved = ar.1.moved
     ∧ "a" ∉ (rr.2.dirList "X_Temp").getD []) := by
  decide

/-- C2 (amended).  Cleanup apply/restore round-trip, as the code implements
it.  If the processed targets' derived backup-subdirectory names are
pairwise distinct, the targets are disjoint from the backup area, the
backup destinations are fresh, the target listings have no duplicate
names, the session timestamp sorts strictly above every existing session
name, at least one entry is moved, and the restore-side moves succeed
(no external interference), then immediately invoking Cleanup restore
returns every entry of every target — in particular every moved entry — to
its original directory, and the restore result's moved count equals the
apply result's moved count.  (Without the distinct-names hypothesis the
round-trip fails: two targets such as `X_Temp` and `X\Temp` share the
backup subdirectory name `X_Temp`, the manifest maps it to only one of
them, and restore sends both targets' entries there.) -/
theorem cleanup_apply_restore_roundtrip
    (w : CleanupWorld) (env : CleanupEnv) (backupsRoot timestamp : String)
    (fs : CleanupFS)
    (hnames : ((collect_temp_dirs env).map backup_subdir_name).Nodup)
    (hfar : ∀ t ∈ collect_temp_dirs env, t ≠ backupsRoot ∧
      t ≠ winJoin backupsRoot timestamp ∧
      ∀ t' ∈ collect_temp_dirs env,
        t ≠ winJoin (winJoin backupsRoot timestamp) (backup_subdir_name t'))
    (hDfresh : ∀ t ∈ collect_temp_dirs env,
      fs.dirList (winJoin (winJoin backupsRoot timestamp) (backup_subdir_name t)) = none)
    (hlnd : ∀ t ∈ collect_temp_dirs env, ((fs.dirList t).getD []).Nodup)
    (hts : ∀ n ∈ (fs.dirList backupsRoot).getD [], pyStrLt n timestamp = true)
    (hmoved : 1 ≤ (safe_cleanup w env backupsRoot timestamp fs).1.moved)
    (hrestoreOk : ∀ t ∈ collect_temp_dirs env, ∀ e ∈ (fs.dirList t).getD [],
      w.moveOk (winJoin (winJoin backupsRoot timestamp) (backup_subdir_name t)) e
        = true) :
    (∀ t ∈ collect_temp_dirs env, ∀ e ∈ (fs.dirList t).getD [],
      e ∈ ((restore_latest_backup w backupsRoot
        (safe_cleanup w env backupsRoot timestamp fs).2).2.dirList t).getD [])
    ∧ (restore_latest_backup w backupsRoot
        (safe_cleanup w env backupsRoot timestamp fs).2).1.moved
      = (safe_cleanup w env backupsRoot timestamp fs).1.moved := by
  set F := (collect_temp_dirs env).foldl (cleanupDirStep w backupsRoot timestamp)
    ⟨fs, [], 0, 0, 0, 0, []⟩ with hFdef
  have hK := cleanupFold_spec_init w backupsRoot timestamp
    (collect_temp_dirs env) fs hnames hfar hDfresh hlnd
  rw [← hFdef] at hK
  -- the apply result and the post-apply filesystem
  have hamoved : (safe_cleanup w env backupsRoot timestamp fs).1.moved = F.moved := by
    simp only [safe_cleanup, ← hFdef]
    split <;> rfl
  rw [hamoved] at hmoved
  have hprocne : (collect_temp_dirs env).filter (isProcessed w fs) ≠ [] := by
    intro h
    have h8 := hK.2.2.2.2.2.2
    rw [h] at h8
    simp at h8
    omega
  have hk3 := hK.2.2.1 hprocne
  have htsnot : timestamp ∉ (fs.dirList backupsRoot).getD [] := by
    intro hmem
    have hlt := hts timestamp hmem
    unfold pyStrLt at hlt
    rw [pyStrLtChars_irrefl] at hlt
    exact Bool.false_ne_true hlt
  have hBlist : F.fs.dirList backupsRoot
      = some ((fs.dirList backupsRoot).getD [] ++ [timestamp]) := by
    rw [hk3.1, if_neg htsnot]
  have hcond : ¬ (F.moved = 0 ∧ F.failed = 0) := by
    intro h
    omega
  have hsc : safe_cleanup w env backupsRoot timestamp fs
      = (⟨F.scanned, F.moved, F.failed, F.skipped,
          some (winJoin backupsRoot timestamp), F.errors⟩,
         { F.fs with manifests := upsert (winJoin backupsRoot timestamp) F.mapping F.fs.manifests }) := by
    simp only [safe_cleanup, ← hFdef]
    rw [if_neg hcond]
  rw [hsc]
  set fs₁ : CleanupFS := { F.fs with manifests := upsert (winJoin backupsRoot timestamp) F.mapping F.fs.manifests } with hfs₁def
  simp only
  have hfs₁dir : ∀ p, fs₁.dirList p = F.fs.dirList p := fun p => rfl
  -- the latest session of the post-apply filesystem is the fresh timestamp
  have hBlist₁ : fs₁.dirList backupsRoot
      = some ((fs.dirList backupsRoot).getD [] ++ [timestamp]) := by
    rw [hfs₁dir]
    exact hBlist
  have hBex : fs₁.dirExists backupsRoot = true := by
    unfold CleanupFS.dirExists
    rw [hBlist₁]
    rfl
  have hSex : fs₁.dirExists (winJoin backupsRoot timestamp) = true := hk3.2
  have hent : listingEntries fs₁ backupsRoot
      = ((fs.dirList backupsRoot).getD [] ++ [timestamp]).map
        (fun n => ⟨n, fs₁.dirExists (winJoin backupsRoot n)⟩) := by
    unfold listingEntries
    rw [hBlist₁]
    simp only [Option.getD_some]
  have hmem : timestamp ∈ ((listingEntries fs₁ backupsRoot).filter
      (fun e => e.isDir)).map (fun e => e.name) := by
    rw [hent]
    apply List.mem_map.mpr
    refine ⟨⟨timestamp, fs₁.dirExists (winJoin backupsRoot timestamp)⟩, ?_, rfl⟩
    apply List.mem_filter.mpr
    refine ⟨List.mem_map_of_mem _ (by simp), ?_⟩
    exact hSex
  have hmax : ∀ n ∈ ((listingEntries fs₁ backupsRoot).filter
      (fun e => e.isDir)).map (fun e => e.name),
      n = timestamp ∨ pyStrLt n timestamp = true := by
    rw [hent]
    intro n hn
    obtain ⟨e, he, rfl⟩ := List.mem_map.mp hn
    obtain ⟨n0, hn0, rfl⟩ := List.mem_map.mp (List.mem_filter.mp he).1
    rcases List.mem_append.mp hn0 with hbl | hts0
    · exact Or.inr (hts n0 hbl)
    · simp only [List.mem_singleton] at hts0
      exact Or.inl hts0
  have hlatest : latestSession true (listingEntries fs₁ backupsRoot)
      = some timestamp :=
    latestSession_eq_max (listingEntries fs₁ backupsRoot) timestamp hmem hmax
  -- the manifest read back is exactly the mapping written by apply
  have hman : readCleanupManifest fs₁ (winJoin backupsRoot timestamp)
      = ((collect_temp_dirs env).filter (isProcessed w fs)).map
          (fun t => (backup_subdir_name t, t)) := by
    unfold readCleanupManifest
    show ((upsert (winJoin backupsRoot timestamp) F.mapping
      F.fs.manifests).lookup (winJoin backupsRoot timestamp)).getD [] = _
    rw [lookup_upsert, if_pos rfl]
    simp only [Option.getD_some]
    exact hK.2.2.2.2.2.1
  have hmanne : (readCleanupManifest fs₁ (winJoin backupsRoot timestamp)).isEmpty
      = false := by
    rw [hman]
    cases hc : (collect_temp_dirs env).filter (isProcessed w fs) with
    | nil => exact absurd hc hprocne
    | cons x xs => rfl
  -- unfold the restore call
  have hrb : restore_latest_backup w backupsRoot fs₁
      = (let R := (((collect_temp_dirs env).filter (isProcessed w fs)).map
          (fun t => (backup_subdir_name t, t))).foldl
          (restoreDirStep w (winJoin backupsRoot timestamp)) ⟨fs₁, 0, 0, 0, 0, []⟩
         (⟨R.scanned, R.moved, R.failed, R.skipped,
           some (winJoin backupsRoot timestamp), R.errors⟩, R.fs)) := by
    have hne2 : ¬ ((((collect_temp_dirs env).filter (isProcessed w fs)).map
        (fun t => (backup_subdir_name t, t))).isEmpty = true) := by
      cases hc : (collect_temp_dirs env).filter (isProcessed w fs) with
      | nil => exact absurd hc hprocne
      | cons x xs => simp
    unfold restore_latest_backup
    simp only [hBex, not_true_eq_false, if_false]
    rw [hlatest]
    simp only
    rw [hman]
    rw [if_neg hne2]
  rw [hrb]
  simp only
  set R := (((collect_temp_dirs env).filter (isProcessed w fs)).map
    (fun t => (backup_subdir_name t, t))).foldl
    (restoreDirStep w (winJoin backupsRoot timestamp)) ⟨fs₁, 0, 0, 0, 0, []⟩
    with hRdef
  -- side conditions for the restore fold
  have hds_nd : (collect_temp_dirs env).Nodup := hnames.of_map
  have hsub : ((collect_temp_dirs env).filter (isProcessed w fs)).Sublist
      (collect_temp_dirs env) := List.filter_sublist _
  have hproc_mem : ∀ t ∈ (collect_temp_dirs env).filter (isProcessed w fs),
      t ∈ collect_temp_dirs env ∧ isProcessed w fs t = true := by
    intro t ht
    exact List.mem_filter.mp ht
  have h1 : ((((collect_temp_dirs env).filter (isProcessed w fs)).map
      (fun t => (backup_subdir_name t, t))).map Prod.fst).Nodup := by
    rw [List.map_map]
    have : (Prod.fst ∘ fun t => (backup_subdir_name t, t)) = backup_subdir_name :=
      rfl
    rw [this]
    exact List.Nodup.sublist (hsub.map backup_subdir_name) hnames
  have h2 : ((((collect_temp_dirs env).filter (isProcessed w fs)).map
      (fun t => (backup_subdir_name t, t))).map Prod.snd).Nodup := by
    rw [List.map_map]
    have : (Prod.snd ∘ fun t => (backup_subdir_name t, t)) = id := rfl
    rw [this, List.map_id]
    exact List.Nodup.sublist hsub hds_nd
  have h3 : ∀ kv ∈ ((collect_temp_dirs env).filter (isProcessed w fs)).map
      (fun t => (backup_subdir_name t, t)),
      ∀ kv' ∈ ((collect_temp_dirs env).filter (isProcessed w fs)).map
      (fun t => (backup_subdir_name t, t)),
      kv.2 ≠ winJoin (winJoin backupsRoot timestamp) kv'.1 := by
    intro kv hkv kv' hkv'
    obtain ⟨t, ht, rfl⟩ := List.mem_map.mp hkv
    obtain ⟨t', ht', rfl⟩ := List.mem_map.mp hkv'
    exact (hfar t (hproc_mem t ht).1).2.2 t' (hproc_mem t' ht').1
  have hsrcList : ∀ t ∈ (collect_temp_dirs env).filter (isProcessed w fs),
      fs₁.dirList (winJoin (winJoin backupsRoot timestamp) (backup_subdir_name t))
        = some (((fs.dirList t).getD []).filter (fun n => w.moveOk t n)) := by
    intro t ht
    rw [hfs₁dir]
    exact (hK.1 t (hproc_mem t ht).1 (hproc_mem t ht).2).1
  have hdstList : ∀ t ∈ (collect_temp_dirs env).filter (isProcessed w fs),
      fs₁.dirList t
        = some (((fs.dirList t).getD []).filter (fun n => !(w.moveOk t n))) := by
    intro t ht
    rw [hfs₁dir]
    exact (hK.1 t (hproc_mem t ht).1 (hproc_mem t ht).2).2
  have h4 : ∀ kv ∈ ((collect_temp_dirs env).filter (isProcessed w fs)).map
      (fun t => (backup_subdir_name t, t)),
      fs₁.dirExists (winJoin (winJoin backupsRoot timestamp) kv.1) = true := by
    intro kv hkv
    obtain ⟨t, ht, rfl⟩ := List.mem_map.mp hkv
    unfold CleanupFS.dirExists
    rw [hsrcList t ht]
    rfl
  have h5 : ∀ kv ∈ ((collect_temp_dirs env).filter (isProcessed w fs)).map
      (fun t => (backup_subdir_name t, t)),
      fs₁.dirExists kv.2 = true := by
    intro kv hkv
    obtain ⟨t, ht, rfl⟩ := List.mem_map.mp hkv
    unfold CleanupFS.dirExists
    rw [hdstList t ht]
    rfl
  have h6 : ∀ kv ∈ ((collect_temp_dirs env).filter (isProcessed w fs)).map
      (fun t => (backup_subdir_name t, t)),
      ((fs₁.dirList (winJoin (winJoin backupsRoot timestamp) kv.1)).getD []).Nodup := by
    intro kv hkv
    obtain ⟨t, ht, rfl⟩ := List.mem_map.mp hkv
    rw [hsrcList t ht]
    exact List.Nodup.filter _ (hlnd t (hproc_mem t ht).1)
  have h7 : ∀ kv ∈ ((collect_temp_dirs env).filter (isProcessed w fs)).map
      (fun t => (backup_subdir_name t, t)),
      ∀ e ∈ (fs₁.dirList (winJoin (winJoin backupsRoot timestamp) kv.1)).getD [],
      e ∉ (fs₁.dirList kv.2).getD []
        ∧ w.moveOk (winJoin (winJoin backupsRoot timestamp) kv.1) e = true := by
    intro kv hkv e he
    obtain ⟨t, ht, rfl⟩ := List.mem_map.mp hkv
    rw [hsrcList t ht] at he
    simp only [Option.getD_some] at he
    have hef := List.mem_filter.mp he
    constructor
    · rw [hdstList t ht]
      simp only [Option.getD_some]
      intro hcontra
      have := (List.mem_filter.mp hcontra).2
      rw [hef.2] at this
      simp at this
    · exact hrestoreOk t (hproc_mem t ht).1 e hef.1
  have hR := restoreFold_spec_init w (winJoin backupsRoot timestamp)
    (((collect_temp_dirs env).filter (isProcessed w fs)).map
      (fun t => (backup_subdir_name t, t))) fs₁ h1 h2 h3 h4 h5 h6 h7
  rw [← hRdef] at hR
  constructor
  · -- every entry of every target is back in its original directory
    intro t ht e he
    by_cases hP : isProcessed w fs t = true
    · have htf : t ∈ (collect_temp_dirs env).filter (isProcessed w fs) :=
        List.mem_filter.mpr ⟨ht, hP⟩
      have hkv := hR.1 (backup_subdir_name t, t) (List.mem_map_of_mem _ htf)
      simp only at hkv
      rw [hsrcList t htf, hdstList t htf] at hkv
      simp only [Option.getD_some] at hkv
      rw [hkv]
      simp only [Option.getD_some]
      rw [List.mem_append]
      by_cases hm : w.moveOk t e = true
      · exact Or.inr (List.mem_filter.mpr ⟨he, hm⟩)
      · refine Or.inl (List.mem_filter.mpr ⟨he, ?_⟩)
        simp [hm]
    · have hPf : isProcessed w fs t = false := Bool.eq_false_iff.mpr hP
      have hfr : R.fs.dirList t = fs₁.dirList t := by
        apply hR.2.1
        intro kv hkv
        obtain ⟨t', ht', rfl⟩ := List.mem_map.mp hkv
        constructor
        · intro hcontra
          rw [hcontra] at hPf
          rw [(hproc_mem t' ht').2] at hPf
          simp at hPf
        · exact (hfar t ht).2.2 t' (hproc_mem t' ht').1
      rw [hfr, hfs₁dir]
      rw [(hK.2.1 t ht hPf).2]
      exact he
  · -- moved counts agree
    rw [hR.2.2]
    rw [List.map_map]
    have hmapeq : (((collect_temp_dirs env).filter (isProcessed w fs)).map
        ((fun kv => ((fs₁.dirList (winJoin (winJoin backupsRoot timestamp)
          kv.1)).getD []).length) ∘ (fun t => (backup_subdir_name t, t))))
        = (((collect_temp_dirs env).filter (isProcessed w fs)).map
        (fun t => (((fs.dirList t).getD []).filter
          (fun n => w.moveOk t n)).length)) := by
      apply List.map_congr_left
      intro t ht
      show ((fs₁.dirList (winJoin (winJoin backupsRoot timestamp)
        (backup_subdir_name t))).getD []).length = _
      rw [hsrcList t ht]
      rfl
    rw [hmapeq]
    exact hK.2.2.2.2.2.2.symm

/-- C2 witness: the amended round-trip theorem at a concrete input — one
accessible target `C:\T1` with two entries, distinct names, fresh backup
area, all moves succeeding.  Both entries return to `C:\T1` and the moved
counts agree. -/
theorem cleanup_apply_restore_roundtrip_witness :
    1 ≤ (safe_cleanup
        ⟨fun _ => true, fun _ => true, fun _ _ => true, fun _ _ => "",
         fun _ => true, fun _ => ""⟩
        ⟨some "C:\\T1", none, none⟩ "B" "S1"
        ⟨[("C:\\T1", ["a", "b"])], []⟩).1.moved
    ∧ ((∀ t ∈ collect_temp_dirs ⟨some "C:\\T1", none, none⟩,
      ∀ e ∈ ((⟨[("C:\\T1", ["a", "b"])], []⟩ : CleanupFS).dirList t).getD [],
      e ∈ ((restore_latest_backup
        ⟨fun _ => true, fun _ => true, fun _ _ => true, fun _ _ => "",
         fun _ => true, fun _ => ""⟩ "B"
        (safe_cleanup
          ⟨fun _ => true, fun _ => true, fun _ _ => true, fun _ _ => "",
           fun _ => true, fun _ => ""⟩
          ⟨some "C:\\T1", none, none⟩ "B" "S1"
          ⟨[("C:\\T1", ["a", "b"])], []⟩).2).2.dirList t).getD [])
    ∧ (restore_latest_backup
        ⟨fun _ => true, fun _ => true, fun _ _ => true, fun _ _ => "",
         fun _ => true, fun _ => ""⟩ "B"
        (safe_cleanup
          ⟨fun _ => true, fun _ => true, fun _ _ => true, fun _ _ => "",
           fun _ => true, fun _ => ""⟩
          ⟨some "C:\\T1", none, none⟩ "B" "S1"
          ⟨[("C:\\T1", ["a", "b"])], []⟩).2).1.moved
      = (safe_cleanup
          ⟨fun _ => true, fun _ => true, fun _ _ => true, fun _ _ => "",
           fun _ => true, fun _ => ""⟩
          ⟨some "C:\\T1", none, none⟩ "B" "S1"
          ⟨[("C:\\T1", ["a", "b"])], []⟩).1.moved) :=
  ⟨by decide,
   cleanup_apply_restore_roundtrip
    ⟨fun _ => true, fun _ => true, fun _ _ => true, fun _ _ => "",
     fun _ => true, fun _ => ""⟩
    ⟨some "C:\\T1", none, none⟩ "B" "S1"
    ⟨[("C:\\T1", ["a", "b"])], []⟩
    (by decide) (by decide) (by decide) (by decide) (by decide) (by decide)
    (by decide)⟩

end Opti2025
